import Mathlib

/-!
Verification of the caching/staleness core of the Livo metadata proxy.

The development shallowly embeds the record-store shim (`makeBinder` in the
Redis DB shim module), the cache-key derivation (`buildCacheKeyFromUrl`),
the freshness policies (`shouldRefresh` in the movie and series routes,
`isExtendedDataMissing`), and the nested merge-upsert logic for seasons,
episodes and guest stars, and proves the specified properties about them.

Conventions used throughout:
- JavaScript `undefined`/`null` field values are both modelled as `none`
  (the code under study never distinguishes them observably);
- machine time `Math.floor(Date.now() / 1000)` is passed in as an explicit
  integer parameter `now`;
- JSON-array-valued text fields (written with `JSON.stringify` and read back
  with `parseJsonArray`) are modelled by the arrays they encode, relying on
  the stringify/parse round trip.
-/

/-- A JavaScript id value as it can reach the shim: an (integer) number or a
string.  TMDB ids are integers; `Number(...)` coercion on them is modelled
by `jsToNumber` below. -/
inductive JVal where
  | num (n : Int)
  | str (s : String)
deriving DecidableEq

/-- Numeric value of a decimal digit character. -/
def digitVal (c : Char) : Nat := c.toNat - 48

/-- Value of a non-empty all-digit character list read in base 10. -/
def decNatOfDigits (cs : List Char) : Nat :=
  cs.foldl (fun n c => 10 * n + digitVal c) 0

/-- Base-10 parse of a character list: `some` value exactly when the list is
a non-empty run of decimal digits. -/
def decNat? (cs : List Char) : Option Nat :=
  if cs.isEmpty then none
  else if cs.all Char.isDigit then some (decNatOfDigits cs) else none

/-- Decimal digit characters of a natural number, most significant first,
via a structural fuel argument so that the definition computes inside the
kernel; any `fuel` with `n ≤ fuel` yields the digits of `n`. -/
def natToDigitsFuel : Nat → Nat → List Char
  | 0, n => [Char.ofNat (48 + n % 10)]
  | fuel + 1, n =>
    if n < 10 then [Char.ofNat (48 + n)]
    else natToDigitsFuel fuel (n / 10) ++ [Char.ofNat (48 + n % 10)]

/-- Decimal digit characters of a natural number, most significant first. -/
def natToDigits (n : Nat) : List Char := natToDigitsFuel n n

/-- The decimal string JavaScript produces for an integer number (as used in
template-string key interpolation and in ids sent as strings). -/
def jsIntToString : Int → String
  | .ofNat n => String.mk (natToDigits n)
  | .negSucc m => String.mk ('-' :: natToDigits (m + 1))

/-- JavaScript `Number(string)` coercion restricted to the id shapes that
occur in this code base: the empty string is 0, an optionally signed run of
decimal digits is its value, anything else is NaN (`none`). -/
def jsStrToNumber (cs : List Char) : Option Int :=
  match cs with
  | [] => some 0
  | c :: rest =>
    if c = '-' then (decNat? rest).map (fun n => -(n : Int))
    else if c = '+' then (decNat? rest).map (fun n => (n : Int))
    else (decNat? (c :: rest)).map (fun n => (n : Int))

/-- JavaScript `Number(v)` on an id value; `none` models NaN. -/
def jsToNumber : JVal → Option Int
  | .num n => some n
  | .str s => jsStrToNumber s.data

/-- The `Number(a) === Number(b)` comparison used by all three list upserts
to match an existing child by id.  NaN compares unequal to everything,
including itself, exactly as in JavaScript. -/
def numEq (a b : JVal) : Bool :=
  match jsToNumber a, jsToNumber b with
  | some m, some n => m == n
  | _, _ => false

theorem numEq_symm (a b : JVal) : numEq a b = numEq b a := by
  unfold numEq
  cases jsToNumber a <;> cases jsToNumber b <;> simp [BEq.comm]

theorem numEq_num (m n : Int) : numEq (.num m) (.num n) = (m == n) := rfl

theorem numEq_num_self (n : Int) : numEq (.num n) (.num n) = true := by
  simp [numEq, jsToNumber]

theorem numEq_trans_right {a b c : JVal} (h1 : numEq a c = true)
    (h2 : numEq b c = true) : numEq a b = true := by
  unfold numEq at h1 h2 ⊢
  cases ha : jsToNumber a <;> cases hb : jsToNumber b <;>
    cases hc : jsToNumber c <;> simp_all

theorem natToDigitsFuel_ne_nil (fuel n : Nat) :
    natToDigitsFuel fuel n ≠ [] := by
  cases fuel with
  | zero => simp [natToDigitsFuel]
  | succ f =>
    by_cases h : n < 10
    · rw [natToDigitsFuel, if_pos h]
      simp
    · rw [natToDigitsFuel, if_neg h]
      simp

theorem natToDigits_ne_nil (n : Nat) : natToDigits n ≠ [] :=
  natToDigitsFuel_ne_nil n n

theorem digit_isDigit {d : Nat} (h : d < 10) :
    (Char.ofNat (48 + d)).isDigit = true := by
  interval_cases d <;> decide

theorem digitVal_ofNat {d : Nat} (h : d < 10) :
    digitVal (Char.ofNat (48 + d)) = d := by
  interval_cases d <;> decide

theorem natToDigitsFuel_all_digits (fuel : Nat) :
    ∀ n, (natToDigitsFuel fuel n).all Char.isDigit = true := by
  induction fuel with
  | zero =>
    intro n
    simp only [natToDigitsFuel, List.all_cons, List.all_nil, Bool.and_true]
    exact digit_isDigit (Nat.mod_lt n (by omega))
  | succ f ih =>
    intro n
    by_cases h : n < 10
    · rw [natToDigitsFuel, if_pos h]
      simp only [List.all_cons, List.all_nil, Bool.and_true]
      exact digit_isDigit h
    · rw [natToDigitsFuel, if_neg h]
      simp only [List.all_append, List.all_cons, List.all_nil, Bool.and_true]
      rw [ih (n / 10), digit_isDigit (Nat.mod_lt n (by omega))]
      rfl

theorem natToDigits_all_digits (n : Nat) :
    (natToDigits n).all Char.isDigit = true :=
  natToDigitsFuel_all_digits n n

theorem decNatOfDigits_append (cs : List Char) (c : Char) :
    decNatOfDigits (cs ++ [c]) = 10 * decNatOfDigits cs + digitVal c := by
  simp [decNatOfDigits, List.foldl_append]

theorem decNatOfDigits_natToDigitsFuel :
    ∀ (fuel n : Nat), n ≤ fuel →
      decNatOfDigits (natToDigitsFuel fuel n) = n := by
  intro fuel
  induction fuel with
  | zero =>
    intro n hn
    have h0 : n = 0 := by omega
    subst h0
    decide
  | succ f ih =>
    intro n hn
    by_cases h : n < 10
    · rw [natToDigitsFuel, if_pos h]
      simp [decNatOfDigits, digitVal_ofNat h]
    · rw [natToDigitsFuel, if_neg h]
      have hdiv : n / 10 < n := Nat.div_lt_self (by omega) (by omega)
      rw [decNatOfDigits_append, ih (n / 10) (by omega),
        digitVal_ofNat (Nat.mod_lt n (by omega))]
      omega

theorem decNat?_natToDigits (n : Nat) : decNat? (natToDigits n) = some n := by
  unfold decNat?
  rw [if_neg (by simp [List.isEmpty_iff, natToDigits_ne_nil]),
    if_pos (natToDigits_all_digits n)]
  rw [show natToDigits n = natToDigitsFuel n n from rfl,
    decNatOfDigits_natToDigitsFuel n n (le_refl n)]

theorem jsToNumber_intString (n : Int) :
    jsToNumber (.str (jsIntToString n)) = some n := by
  cases n with
  | ofNat m =>
    show jsStrToNumber (natToDigits m) = some (.ofNat m)
    have hall := natToDigits_all_digits m
    cases hd : natToDigits m with
    | nil => exact absurd hd (natToDigits_ne_nil m)
    | cons c rest =>
      rw [hd] at hall
      simp only [List.all_cons, Bool.and_eq_true] at hall
      have hc : c.isDigit = true := hall.1
      have hminus : ¬ c = '-' := by
        intro hcm; rw [hcm] at hc; exact absurd hc (by decide)
      have hplus : ¬ c = '+' := by
        intro hcm; rw [hcm] at hc; exact absurd hc (by decide)
      rw [jsStrToNumber, if_neg hminus, if_neg hplus, ← hd,
        decNat?_natToDigits]
      rfl
  | negSucc m =>
    show jsStrToNumber ('-' :: natToDigits (m + 1)) = some (.negSucc m)
    rw [jsStrToNumber, if_pos rfl, decNat?_natToDigits]
    simp [Int.negSucc_eq]

/-- JavaScript `Array.prototype.findIndex`: index of the first element
satisfying the predicate. -/
def jsFindIndex {α : Type} (p : α → Bool) : List α → Option Nat
  | [] => none
  | a :: l => if p a then some 0 else (jsFindIndex p l).map (· + 1)

/-- JavaScript `Array.prototype.find`: the first element satisfying the
predicate. -/
def jsFind {α : Type} (p : α → Bool) : List α → Option α
  | [] => none
  | a :: l => if p a then some a else jsFind p l

/-- The find-or-append pattern shared verbatim by the three list upserts of
the shim: `const idx = arr.findIndex(p); if (idx >= 0) arr[idx] = x; else
arr.push(x)`. -/
def listUpsert {α : Type} (p : α → Bool) (x : α) (l : List α) : List α :=
  match jsFindIndex p l with
  | some i => l.set i x
  | none => l ++ [x]

theorem jsFindIndex_none_iff {α : Type} (p : α → Bool) (l : List α) :
    jsFindIndex p l = none ↔ ∀ a ∈ l, p a = false := by
  induction l with
  | nil => simp [jsFindIndex]
  | cons a l ih =>
    by_cases h : p a <;> simp [jsFindIndex, h, ih]

theorem jsFindIndex_some {α : Type} {p : α → Bool} {l : List α} {i : Nat}
    (h : jsFindIndex p l = some i) :
    i < l.length ∧ ∃ a, l[i]? = some a ∧ p a = true := by
  induction l generalizing i with
  | nil => simp [jsFindIndex] at h
  | cons a l ih =>
    by_cases hp : p a
    · simp only [jsFindIndex, if_pos hp, Option.some.injEq] at h
      subst h
      exact ⟨by simp, a, by simp, hp⟩
    · simp only [jsFindIndex, if_neg hp, Option.map_eq_some'] at h
      obtain ⟨j, hj, rfl⟩ := h
      obtain ⟨hlt, b, hb, hpb⟩ := ih hj
      exact ⟨by simpa using hlt, b, by simpa using hb, hpb⟩

theorem jsFindIndex_earlier {α : Type} {p : α → Bool} {l : List α} {i : Nat}
    (h : jsFindIndex p l = some i) {j : Nat} (hj : j < i) {a : α}
    (ha : l[j]? = some a) : p a = false := by
  induction l generalizing i j with
  | nil => simp [jsFindIndex] at h
  | cons b l ih =>
    by_cases hp : p b
    · simp only [jsFindIndex, if_pos hp, Option.some.injEq] at h
      omega
    · simp only [jsFindIndex, if_neg hp, Option.map_eq_some'] at h
      obtain ⟨k, hk, rfl⟩ := h
      cases j with
      | zero =>
        simp only [List.getElem?_cons_zero, Option.some.injEq] at ha
        subst ha
        simpa using hp
      | succ j2 =>
        simp only [List.getElem?_cons_succ] at ha
        exact ih hk (by omega) ha

theorem jsFind_eq {α : Type} {p : α → Bool} {l : List α} {i : Nat} {a : α}
    (h : jsFindIndex p l = some i) (ha : l[i]? = some a) :
    jsFind p l = some a := by
  induction l generalizing i with
  | nil => simp [jsFindIndex] at h
  | cons b l ih =>
    by_cases hp : p b
    · simp only [jsFindIndex, if_pos hp, Option.some.injEq] at h
      subst h
      simp only [List.getElem?_cons_zero, Option.some.injEq] at ha
      subst ha
      simp [jsFind, hp]
    · simp only [jsFindIndex, if_neg hp, Option.map_eq_some'] at h
      obtain ⟨k, hk, rfl⟩ := h
      simp only [List.getElem?_cons_succ] at ha
      simpa [jsFind, hp] using ih hk ha

theorem jsFind_none {α : Type} {p : α → Bool} {l : List α}
    (h : jsFindIndex p l = none) : jsFind p l = none := by
  induction l with
  | nil => simp [jsFind]
  | cons b l ih =>
    by_cases hp : p b
    · simp [jsFindIndex, hp] at h
    · simp only [jsFindIndex, if_neg hp, Option.map_eq_none'] at h
      simpa [jsFind, hp] using ih h

theorem set_getElem?_self {α : Type} {l : List α} {i : Nat} {a : α}
    (h : l[i]? = some a) : l.set i a = l := by
  induction l generalizing i with
  | nil => simp at h
  | cons b l ih =>
    cases i with
    | zero =>
      simp only [List.getElem?_cons_zero, Option.some.injEq] at h
      simp [h]
    | succ j =>
      simp only [List.getElem?_cons_succ] at h
      show b :: l.set j a = b :: l
      rw [ih h]

theorem jsFindIndex_set {α : Type} {p : α → Bool} {l : List α} {i : Nat}
    {x : α} (h : jsFindIndex p l = some i) (hx : p x = true) :
    jsFindIndex p (l.set i x) = some i := by
  induction l generalizing i with
  | nil => simp [jsFindIndex] at h
  | cons a l ih =>
    by_cases hp : p a
    · simp only [jsFindIndex, if_pos hp, Option.some.injEq] at h
      subst h
      show jsFindIndex p (x :: l) = some 0
      simp [jsFindIndex, hx]
    · simp only [jsFindIndex, if_neg hp, Option.map_eq_some'] at h
      obtain ⟨j, hj, rfl⟩ := h
      show jsFindIndex p (a :: l.set j x) = some (j + 1)
      simp [jsFindIndex, hp, ih hj]

theorem listUpsert_found {α : Type} {p : α → Bool} {l : List α} {i : Nat}
    (x : α) (h : jsFindIndex p l = some i) : listUpsert p x l = l.set i x := by
  unfold listUpsert
  rw [h]

theorem listUpsert_notFound {α : Type} {p : α → Bool} {l : List α}
    (x : α) (h : jsFindIndex p l = none) : listUpsert p x l = l ++ [x] := by
  unfold listUpsert
  rw [h]

theorem pairwise_set {α : Type} {R : α → α → Prop}
    (hs : ∀ a b, R a b → R b a) {l : List α} (hl : l.Pairwise R) {i : Nat}
    {x : α} (hx : ∀ j, j ≠ i → ∀ b, l[j]? = some b → R x b) :
    (l.set i x).Pairwise R := by
  rw [List.pairwise_iff_getElem] at hl ⊢
  intro a b ha hb hab
  rw [List.length_set] at ha hb
  rw [List.getElem_set, List.getElem_set]
  by_cases hia : i = a <;> by_cases hib : i = b
  · omega
  · simp only [if_pos hia, if_neg hib]
    exact hx b (by omega) _ (List.getElem?_eq_getElem hb)
  · simp only [if_neg hia, if_pos hib]
    exact hs _ _ (hx a (by omega) _ (List.getElem?_eq_getElem ha))
  · simp only [if_neg hia, if_neg hib]
    exact hl a b ha hb hab

/-- A guest-star entry as stored inside an episode's `guest_stars` array by
the `INSERT INTO episode_guest_stars` branch of the shim. -/
structure Guest where
  id : JVal
  name : Option String
  original_name : Option String
  character : Option String
  profile_path : Option String
  order : Option Int
deriving DecidableEq

/-- An episode entry as stored in the season's episode array by the shim.
Scalar fields are optional because a placeholder episode created by a
guest-star upsert carries only the identifying fields. -/
structure Episode where
  series_id : JVal
  id : JVal
  episode_id : JVal
  episode_number : Option Int
  name : Option String
  overview : Option String
  still_path : Option String
  air_date : Option String
  vote_average : Option Rat
  vote_count : Option Int
  updated_at : Option Int
  guest_stars : List Guest
deriving DecidableEq

/-- A season entry as stored in the series season array by the shim. -/
structure Season where
  id : JVal
  season_number : Option Int
  name : Option String
  overview : Option String
  poster_path : Option String
  air_date : Option String
  episode_count : Option Int
  vote_average : Option Rat
  updated_at : Option Int
deriving DecidableEq

/-- Bound parameters of the `INSERT INTO series_seasons` statement. -/
structure SeasonParams where
  series_id : JVal
  language : Option String
  season_id : JVal
  season_number : Option Int
  name : Option String
  overview : Option String
  poster_path : Option String
  air_date : Option String
  episode_count : Option Int
  vote_average : Option Rat
  updated_at : Int
deriving DecidableEq

/-- Bound parameters of the `INSERT INTO series_episodes` statement.  Note
the statement carries no guest-star payload at all. -/
structure EpisodeParams where
  series_id : JVal
  language : Option String
  season_number : Option Int
  episode_id : JVal
  episode_number : Option Int
  name : Option String
  overview : Option String
  still_path : Option String
  air_date : Option String
  vote_average : Option Rat
  vote_count : Option Int
  updated_at : Int
deriving DecidableEq

/-- Bound parameters of the `INSERT INTO episode_guest_stars` statement. -/
structure GuestStarParams where
  series_id : JVal
  language : Option String
  season_number : Option Int
  episode_id : JVal
  episode_number : Option Int
  guest_id : JVal
  name : Option String
  original_name : Option String
  character : Option String
  profile_path : Option String
  order_index : Option Int
  updated_at : Int
deriving DecidableEq

/-- Predicate used by the episode branches of the shim:
`(e) => Number(e.episode_id) === Number(episode_id)`. -/
def epMatch (eid : JVal) (e : Episode) : Bool := numEq e.episode_id eid

/-- The season object literal built by the seasons branch of the shim. -/
def seasonRowOf (p : SeasonParams) : Season :=
  { id := p.season_id, season_number := p.season_number, name := p.name,
    overview := p.overview, poster_path := p.poster_path,
    air_date := p.air_date, episode_count := p.episode_count,
    vote_average := p.vote_average, updated_at := some p.updated_at }

/-- The `INSERT INTO series_seasons` branch of `makeBinder.run`: find the
season by `Number(s.id) === Number(season_id)`, replace in place or push. -/
def runInsertSeason (arr : List Season) (p : SeasonParams) : List Season :=
  listUpsert (fun s => numEq s.id p.season_id) (seasonRowOf p) arr

/-- The episode object literal built by the episodes branch of the shim.
Its `guest_stars` field is carried forward from the existing element found
by id (`arr.find(...)?.guest_stars || []`); an episode's stored
`guest_stars` is always an array, so the `|| []` fallback triggers exactly
when no existing element matches. -/
def episodeRowOf (arr : List Episode) (p : EpisodeParams) : Episode :=
  { series_id := p.series_id, id := p.episode_id, episode_id := p.episode_id,
    episode_number := p.episode_number, name := p.name,
    overview := p.overview, still_path := p.still_path,
    air_date := p.air_date, vote_average := p.vote_average,
    vote_count := p.vote_count, updated_at := some p.updated_at,
    guest_stars :=
      ((jsFind (epMatch p.episode_id) arr).map Episode.guest_stars).getD [] }

/-- The `INSERT INTO series_episodes` branch of `makeBinder.run`. -/
def runInsertEpisode (arr : List Episode) (p : EpisodeParams) : List Episode :=
  listUpsert (epMatch p.episode_id) (episodeRowOf arr p) arr

/-- The guest object literal built by the guest-star branch of the shim. -/
def guestRowOf (p : GuestStarParams) : Guest :=
  { id := p.guest_id, name := p.name, original_name := p.original_name,
    character := p.character, profile_path := p.profile_path,
    order := p.order_index }

/-- The placeholder episode entry pushed by the guest-star branch when no
episode with the given id exists: identifying fields only, with an empty
guest-star array (and no scalar detail fields, not even `updated_at`). -/
def placeholderEpisode (p : GuestStarParams) : Episode :=
  { series_id := p.series_id, id := p.episode_id, episode_id := p.episode_id,
    episode_number := p.episode_number, name := none, overview := none,
    still_path := none, air_date := none, vote_average := none,
    vote_count := none, updated_at := none, guest_stars := [] }

/-- The mutation of the episode object found by the guest-star branch:
`episode.guest_stars = episode.guest_stars || []` (the identity here,
since stored guest lists are arrays) followed by the find-or-push of the
guest keyed by `Number(g.id) === Number(guest_id)`. -/
def addGuest (p : GuestStarParams) (e : Episode) : Episode :=
  let gs :=
    listUpsert (fun g => numEq g.id p.guest_id) (guestRowOf p) e.guest_stars
  { e with guest_stars := gs }

/-- The `INSERT INTO episode_guest_stars` branch of `makeBinder.run`: push a
placeholder episode if the episode id matches no element, then mutate the
(first) matching episode's guest array; mutating the object returned by
`arr.find` is modelled by updating the list at the found index.  Result
`none` models the path where `arr.find` yields `undefined` — possible
exactly when `Number(episode_id)` is NaN, so the freshly pushed placeholder
does not match itself — making `episode.guest_stars` throw; `run` catches
the exception and the `cacheSet` write never happens. -/
def runInsertGuestStar (arr : List Episode) (p : GuestStarParams) :
    Option (List Episode) :=
  let arr1 := match jsFindIndex (epMatch p.episode_id) arr with
    | some _ => arr
    | none => arr ++ [placeholderEpisode p]
  match jsFindIndex (epMatch p.episode_id) arr1 with
  | some i =>
    match arr1[i]? with
    | some e => some (arr1.set i (addGuest p e))
    | none => none
  | none => none

/-- Rendering of an id value in a template string (`${seriesId}`). -/
def jsValToString : JVal → String
  | .num n => jsIntToString n
  | .str s => s

/-- The parent cache key of a season's episode list, as interpolated
identically by the episode read, the episode upsert and the guest-star
upsert: `/series/ID/season/N/episodes?lang=LANG`. -/
def episodesKey (seriesId : JVal) (seasonNumber : Option Int)
    (language : Option String) : String :=
  "/series/" ++ jsValToString seriesId ++ "/season/" ++
    (match seasonNumber with
      | some n => jsIntToString n
      | none => "undefined") ++
    "/episodes?lang=" ++ language.getD ""

/-- The flat key-value backend state restricted to episode-list values. -/
def EpisodesStore : Type := String → Option (List Episode)

/-- The guest-star upsert at store level: read the episode array under the
parent key (empty if absent), apply `runInsertGuestStar`, and write the
whole array back under the same parent key; on the caught-exception path
no write happens and the store is unchanged. -/
def runInsertGuestStarStore (σ : EpisodesStore) (p : GuestStarParams) :
    EpisodesStore :=
  let key := episodesKey p.series_id p.season_number p.language
  match runInsertGuestStar ((σ key).getD []) p with
  | some arr2 => fun k => if k = key then some arr2 else σ k
  | none => σ

/-- An incoming guest-star element of an upstream season/episode payload.
The route skips elements whose `id` is not a number, so a processed payload
always carries an integer id. -/
structure GuestPayload where
  id : Int
  name : Option String
  original_name : Option String
  character : Option String
  profile_path : Option String
  order : Option Int
deriving DecidableEq

/-- An incoming episode element of an upstream season/episode payload.  The
route skips elements whose `id` is not a number.  `guest_stars = none`
models a payload whose `guest_stars` field is absent or not an array. -/
structure EpisodePayload where
  id : Int
  episode_number : Option Int
  name : Option String
  overview : Option String
  still_path : Option String
  air_date : Option String
  vote_average : Option Rat
  vote_count : Option Int
  guest_stars : Option (List GuestPayload)
deriving DecidableEq

/-- The episode bind of `upsertSeasonEpisodes` in the series route, with the
`?? 0` defaults it applies to the vote fields. -/
def episodeParamsOf (seriesId : JVal) (seasonNumber : Option Int)
    (language : Option String) (e : EpisodePayload) (now : Int) :
    EpisodeParams :=
  { series_id := seriesId, language := language,
    season_number := seasonNumber, episode_id := .num e.id,
    episode_number := e.episode_number, name := e.name,
    overview := e.overview, still_path := e.still_path,
    air_date := e.air_date, vote_average := some (e.vote_average.getD 0),
    vote_count := some (e.vote_count.getD 0), updated_at := now }

/-- The guest-star bind of `upsertSeasonEpisodes` in the series route, with
its `?? null` default on `order`. -/
def guestParamsOf (seriesId : JVal) (seasonNumber : Option Int)
    (language : Option String) (eid : Int) (epNumber : Option Int)
    (g : GuestPayload) (now : Int) : GuestStarParams :=
  { series_id := seriesId, language := language,
    season_number := seasonNumber, episode_id := .num eid,
    episode_number := epNumber, guest_id := .num g.id, name := g.name,
    original_name := g.original_name, character := g.character,
    profile_path := g.profile_path, order_index := g.order,
    updated_at := now }

/-- One iteration of `upsertSeasonEpisodes`: run the episode insert, then,
when the payload has a guest-star array, run the guest-star insert for each
of its elements. -/
def upsertOneEpisode (arr : List Episode) (seriesId : JVal)
    (seasonNumber : Option Int) (language : Option String)
    (e : EpisodePayload) (now : Int) : List Episode :=
  let arr1 :=
    runInsertEpisode arr (episodeParamsOf seriesId seasonNumber language e now)
  match e.guest_stars with
  | none => arr1
  | some gs =>
    gs.foldl
      (fun a g =>
        (runInsertGuestStar a
          (guestParamsOf seriesId seasonNumber language e.id e.episode_number
            g now)).getD a)
      arr1

/-- The function `upsertSeasonEpisodes` of the series route over the episode-list state:
each incoming episode is upserted in order with a shared `now` stamp. -/
def upsertSeasonEpisodes (arr : List Episode) (seriesId : JVal)
    (seasonNumber : Option Int) (language : Option String)
    (eps : List EpisodePayload) (now : Int) : List Episode :=
  eps.foldl (fun a e => upsertOneEpisode a seriesId seasonNumber language e now)
    arr

/-- The staleness threshold, `30 * 24 * 60 * 60` seconds (30 days), declared
identically in the movie route, the series route and the shim. -/
def CACHE_INTERVAL_SECONDS : Int := 30 * 24 * 60 * 60

/-- JavaScript `v || d` on an optional string: `undefined`, `null` and the
empty string are all falsy. -/
def jsOrStr (v : Option String) (d : String) : String :=
  match v with
  | some s => if s = "" then d else s
  | none => d

/-- A movie row as stored by the `INSERT INTO movies_by_channel` and
`INSERT INTO movies_by_id` branches of the shim (both build the identical
object shape; the channel id lives only in the cache key).  The three
JSON-array-valued text columns are kept at the JSON-text level since
nothing in the claims decodes them. -/
structure MovieRow where
  tmdb_id : JVal
  title : Option String
  overview : Option String
  release_date : Option String
  poster_path : Option String
  genres : String
  rating : Option Rat
  rating_count : Option Int
  director_name : Option String
  cast_names : String
  cast_profile_paths : String
  updated_at : Int
deriving DecidableEq

/-- Bound parameters shared by the two movie insert statements (minus the
key components). -/
structure MovieParams where
  tmdb_id : JVal
  title : Option String
  overview : Option String
  release_date : Option String
  poster_path : Option String
  genres : Option String
  rating : Option Rat
  rating_count : Option Int
  director_name : Option String
  cast_names : Option String
  cast_profile_paths : Option String
  updated_at : Int
deriving DecidableEq

/-- The movie object literal built by the `INSERT INTO movies_by_id` branch
of the shim, with its `|| "[]"` defaults. -/
def movieByIdRow (p : MovieParams) : MovieRow :=
  { tmdb_id := p.tmdb_id, title := p.title, overview := p.overview,
    release_date := p.release_date, poster_path := p.poster_path,
    genres := jsOrStr p.genres "[]", rating := p.rating,
    rating_count := p.rating_count, director_name := p.director_name,
    cast_names := jsOrStr p.cast_names "[]",
    cast_profile_paths := jsOrStr p.cast_profile_paths "[]",
    updated_at := p.updated_at }

/-- The movie object literal built by the `INSERT INTO movies_by_channel`
branch of the shim; its construction is character-for-character the same as
the by-id branch, only the cache key differs. -/
def movieByChannelRow (p : MovieParams) : MovieRow :=
  { tmdb_id := p.tmdb_id, title := p.title, overview := p.overview,
    release_date := p.release_date, poster_path := p.poster_path,
    genres := jsOrStr p.genres "[]", rating := p.rating,
    rating_count := p.rating_count, director_name := p.director_name,
    cast_names := jsOrStr p.cast_names "[]",
    cast_profile_paths := jsOrStr p.cast_profile_paths "[]",
    updated_at := p.updated_at }

/-- The function `shouldRefresh` of the movie route: absent rows refresh; rows whose
rating and rating count (after `?? 0`) are both exactly zero refresh
regardless of age; otherwise refresh exactly when the age exceeds the
30-day threshold. -/
def movieShouldRefresh (row : Option MovieRow) (now : Int) : Bool :=
  match row with
  | none => true
  | some r =>
    let rating := r.rating.getD 0
    let ratingCount := r.rating_count.getD 0
    if rating == 0 && ratingCount == 0 then true
    else decide (now - r.updated_at > CACHE_INTERVAL_SECONDS)

/-- A series row as read by `isExtendedDataMissing`.  JSON-array-valued
fields are modelled by the arrays they encode; `none` models an absent or
null field.  The `seasons` field is checked by `isExtendedDataMissing` but
is never part of the object the shim stores. -/
structure SeriesRow where
  tmdb_id : JVal
  genre_ids : Option (List Int)
  original_language : Option String
  overview : Option String
  original_name : Option String
  created_by : Option (List String)
  number_of_episodes : Option Int
  number_of_seasons : Option Int
  poster_path : Option String
  first_air_date : Option String
  name : Option String
  vote_average : Option Rat
  vote_count : Option Int
  updated_at : Int
  seasons : Option (List Season)
deriving DecidableEq

/-- The function `parseJsonArray` of the series route at the array abstraction: an
absent/null value decodes to the empty array, an encoded array decodes to
itself. -/
def parseJsonArrayOpt {β : Type} (v : Option (List β)) : List β := v.getD []

/-- The function `shouldRefresh` of the series route: absent rows refresh; otherwise
refresh exactly when the age exceeds the 30-day threshold. -/
def seriesShouldRefresh (row : Option SeriesRow) (now : Int) : Bool :=
  match row with
  | none => true
  | some r => decide (now - r.updated_at > CACHE_INTERVAL_SECONDS)

/-- The function `isExtendedDataMissing` of the series route.  The final disjunction
lists, in source order: `created_by` absent, `seasons` absent,
`number_of_episodes` absent, `number_of_seasons` absent, or the
looks-like-search-only heuristic (empty creator list and zero/absent
episode and season counts). -/
def isExtendedDataMissing (row : SeriesRow) : Bool :=
  let createdBy := parseJsonArrayOpt row.created_by
  let episodes := row.number_of_episodes
  let seasonsCount := row.number_of_seasons
  let looksLikeSearchOnly :=
    decide (createdBy.length = 0) &&
    (decide (episodes = some 0) || episodes.isNone) &&
    (decide (seasonsCount = some 0) || seasonsCount.isNone)
  row.created_by.isNone || row.seasons.isNone ||
    row.number_of_episodes.isNone || row.number_of_seasons.isNone ||
    looksLikeSearchOnly

/-- An upstream series payload as passed to `upsertSeries` (either a full
detail payload or a search-derived one with the extended fields absent). -/
structure SeriesPayload where
  id : JVal
  genre_ids : Option (List Int)
  original_language : Option String
  overview : Option String
  original_name : Option String
  created_by : Option (List String)
  number_of_episodes : Option Int
  number_of_seasons : Option Int
  poster_path : Option String
  first_air_date : Option String
  name : Option String
  vote_average : Option Rat
  vote_count : Option Int
deriving DecidableEq

/-- The stored row produced by `upsertSeries` in the series route composed
with the `INSERT INTO series_by_id` branch of the shim: the route applies
`|| []` to the array fields and `?? 0` to the numeric fields and binds
`updated_at = now`; the shim stores exactly the bound fields — the stored
object carries no `seasons` key, hence `seasons := none`. -/
def upsertSeriesRow (p : SeriesPayload) (now : Int) : SeriesRow :=
  { tmdb_id := p.id, genre_ids := some (p.genre_ids.getD []),
    original_language := p.original_language, overview := p.overview,
    original_name := p.original_name,
    created_by := some (p.created_by.getD []),
    number_of_episodes := some (p.number_of_episodes.getD 0),
    number_of_seasons := some (p.number_of_seasons.getD 0),
    poster_path := p.poster_path, first_air_date := p.first_air_date,
    name := p.name, vote_average := some (p.vote_average.getD 0),
    vote_count := some (p.vote_count.getD 0), updated_at := now,
    seasons := none }

/-- The `Number(a) === Number(b)` comparison on possibly-absent numeric
fields (an absent operand is NaN and never compares equal). -/
def numEqOptInt (a b : Option Int) : Bool :=
  match a, b with
  | some m, some n => m == n
  | _, _ => false

/-- A flattened guest-star row as produced by the
`FROM episode_guest_stars` branch of `makeBinder.all`. -/
structure EpisodeGuestRow where
  episode_id : JVal
  episode_number : Option Int
  guest_id : JVal
  name : Option String
  original_name : Option String
  character : Option String
  profile_path : Option String
  order_index : Option Int
deriving DecidableEq

/-- The guest-star flattening of `makeBinder.all`: every guest of every
episode stored under the season's parent key, in episode order.  The
branch ignores the episode/ordering clauses of the SQL it shims. -/
def flattenGuestRows (episodes : List Episode) : List EpisodeGuestRow :=
  episodes.flatMap (fun ep =>
    ep.guest_stars.map (fun g =>
      { episode_id := ep.episode_id, episode_number := ep.episode_number,
        guest_id := g.id, name := g.name, original_name := g.original_name,
        character := g.character, profile_path := g.profile_path,
        order_index := g.order }))

/-- A guest entry of the episode view assembled by `readEpisode` in the
series route.  Its `id` is taken from the `id` field of the flattened
guest row; the shim ignores the `guest_id as id` column alias of the query
it shims, so that field is always absent. -/
structure EpisodeViewGuest where
  series_id : JVal
  id : Option JVal
  name : Option String
  original_name : Option String
  character : Option String
  profile_path : Option String
  order : Option Int
deriving DecidableEq

/-- The cached-episode view assembled by `readEpisode` in the series route
(on top of the shim's reads). -/
structure EpisodeView where
  series_id : JVal
  id : JVal
  episode_id : JVal
  episode_number : Option Int
  name : Option String
  overview : Option String
  still_path : Option String
  air_date : Option String
  vote_average : Rat
  vote_count : Int
  guest_stars : List EpisodeViewGuest
  updated_at : Option Int
deriving DecidableEq

/-- The read path `readEpisode` of the series route composed with the shim: locate the
episode by `Number(e.episode_number) === Number(episodeNumber)` in the
season list, and attach the guest rows of the guest-star flattening —
which covers the entire season, since the shim ignores the per-episode
filter of the query. -/
def readEpisodeView (seriesId : JVal) (episodes : List Episode)
    (episodeNumber : Option Int) : Option EpisodeView :=
  match jsFind (fun e => numEqOptInt e.episode_number episodeNumber)
      episodes with
  | none => none
  | some ep =>
    let guests := (flattenGuestRows episodes).map (fun g =>
      ({ series_id := seriesId, id := none, name := g.name,
         original_name := g.original_name, character := g.character,
         profile_path := g.profile_path,
         order := g.order_index } : EpisodeViewGuest))
    let view : EpisodeView :=
      { series_id := seriesId, id := ep.id, episode_id := ep.id,
        episode_number := ep.episode_number, name := ep.name,
        overview := ep.overview, still_path := ep.still_path,
        air_date := ep.air_date, vote_average := ep.vote_average.getD 0,
        vote_count := ep.vote_count.getD 0, guest_stars := guests,
        updated_at := ep.updated_at }
    some view

/-- How the episode handler resolved a request: from the episode record of
the shimmed table, from the URL-keyed response cache, or by fetching
upstream. -/
inductive ServeOutcome where
  | table
  | urlCache
  | upstream
deriving DecidableEq

/-- The serve decision of `handleSeriesEpisode`: the cached episode record
is served only when it exists, its age is within the threshold (an absent
`updated_at` gives a NaN age, and a NaN comparison is false), and its
attached guest-star list is non-empty; otherwise the URL-keyed cache is
consulted, and upstream is fetched only when that also misses. -/
def episodeServeDecision (cached : Option EpisodeView) (now : Int)
    (urlHit : Bool) : ServeOutcome :=
  match cached with
  | some c =>
    let fresh := match c.updated_at with
      | some u => decide (now - u ≤ CACHE_INTERVAL_SECONDS)
      | none => false
    if fresh && decide (c.guest_stars.length > 0) then .table
    else if urlHit then .urlCache else .upstream
  | none => if urlHit then .urlCache else .upstream

/-- Outcome of one backend read as seen at the `cacheGet` boundary: the
backend threw, the key was absent, the stored bytes failed JSON decoding,
or a value was decoded. -/
inductive ReadOutcome (α : Type) where
  | backendError
  | absent
  | malformed
  | ok (v : α)

/-- The function `cacheGet` of the cache module: a backend throw propagates (only
`JSON.parse` sits inside its `try`), a missing raw value yields `null`, and
a decode failure is caught and yields `null`. -/
def cacheGetM {α : Type} : ReadOutcome α → Except Unit (Option α)
  | .backendError => .error ()
  | .absent => .ok none
  | .malformed => .ok none
  | .ok v => .ok (some v)

/-- The scalar-row branches of `makeBinder.first` (movies by channel,
movies by id, series by id): `cacheGet` under a `try` that returns `null`
on any throw, then `v || null` (stored rows are objects, hence truthy). -/
def firstM {α : Type} (r : ReadOutcome α) : Option α :=
  match cacheGetM r with
  | .error _ => none
  | .ok v => v

/-- The single-episode branch of `makeBinder.first`: the episode list under
the season key (`|| []`), then `find` by episode number, `|| null`. -/
def firstEpisodeM (r : ReadOutcome (List Episode))
    (episodeNumber : Option Int) : Option Episode :=
  match cacheGetM r with
  | .error _ => none
  | .ok v =>
    jsFind (fun e => numEqOptInt e.episode_number episodeNumber) (v.getD [])

/-- The list branches of `makeBinder.all` (seasons, episodes): `cacheGet`
under a `try` that returns an empty result set on any throw, then
`(... ) || []`. -/
def allM {α : Type} (r : ReadOutcome (List α)) : List α :=
  match cacheGetM r with
  | .error _ => []
  | .ok v => v.getD []

/-- Characters `URLSearchParams` serialization leaves unencoded
(`application/x-www-form-urlencoded`). -/
def formUnreserved (c : Char) : Bool :=
  c.isAlphanum || c = '*' || c = '-' || c = '.' || c = '_'

/-- Uppercase hexadecimal digit for a value below 16. -/
def hexDigitChar (n : Nat) : Char :=
  if n < 10 then Char.ofNat (48 + n) else Char.ofNat (55 + n)

/-- UTF-8 bytes of a character (as byte values). -/
def utf8Bytes (c : Char) : List Nat :=
  let n := c.toNat
  if n < 128 then [n]
  else if n < 2048 then [192 + n / 64, 128 + n % 64]
  else if n < 65536 then [224 + n / 4096, 128 + (n / 64) % 64, 128 + n % 64]
  else [240 + n / 262144, 128 + (n / 4096) % 64, 128 + (n / 64) % 64,
    128 + n % 64]

/-- Percent-encoding of one byte. -/
def percentByte (b : Nat) : String :=
  String.mk ['%', hexDigitChar (b / 16), hexDigitChar (b % 16)]

/-- The `URLSearchParams` serialization of one character: unreserved characters
stand for themselves, a space becomes `+`, everything else is
percent-encoded byte-wise. -/
def formEncodeChar (c : Char) : String :=
  if formUnreserved c then String.singleton c
  else if c = ' ' then "+"
  else String.join ((utf8Bytes c).map percentByte)

/-- The `URLSearchParams` serialization of one name or value. -/
def formEncode (s : String) : String :=
  String.join (s.data.map formEncodeChar)

/-- The call `toLowerCase()` as applied to parameter names: character-wise ASCII
lowering (the credential parameter name is ASCII). -/
def strToLower (s : String) : String := String.mk (s.data.map Char.toLower)

/-- The credential filter of `buildCacheKeyFromUrl`:
`entries.filter(([k]) => k.toLowerCase() !== "api_key")`. -/
def stripApiKey (entries : List (String × String)) :
    List (String × String) :=
  entries.filter (fun e => strToLower e.1 != "api_key")

theorem char_toNat_inj {a b : Char} (h : a.toNat = b.toNat) : a = b :=
  Char.ext (UInt32.ext h)

/-- Code-point order on character lists (shortlex on equal prefixes). -/
def charListLe : List Char → List Char → Bool
  | [], _ => true
  | _ :: _, [] => false
  | a :: as, b :: bs =>
    if a.toNat < b.toNat then true
    else if b.toNat < a.toNat then false
    else charListLe as bs

theorem charListLe_total : ∀ (x y : List Char),
    charListLe x y = true ∨ charListLe y x = true := by
  intro x
  induction x with
  | nil =>
    intro y
    left
    rfl
  | cons a as ih =>
    intro y
    cases y with
    | nil =>
      right
      rfl
    | cons b bs =>
      by_cases h1 : a.toNat < b.toNat
      · left
        rw [charListLe, if_pos h1]
      · by_cases h2 : b.toNat < a.toNat
        · right
          rw [charListLe, if_pos h2]
        · rcases ih bs with h | h
          · left
            rw [charListLe, if_neg h1, if_neg h2]
            exact h
          · right
            rw [charListLe, if_neg h2, if_neg h1]
            exact h

theorem charListLe_trans : ∀ (x y z : List Char),
    charListLe x y = true → charListLe y z = true →
      charListLe x z = true := by
  intro x
  induction x with
  | nil =>
    intro y z _ _
    rfl
  | cons a as ih =>
    intro y z h1 h2
    cases y with
    | nil => exact Bool.noConfusion h1
    | cons b bs =>
      cases z with
      | nil => exact Bool.noConfusion h2
      | cons c cs =>
        rw [charListLe] at h1 h2 ⊢
        by_cases hab : a.toNat < b.toNat
        · by_cases hbc : b.toNat < c.toNat
          · rw [if_pos (by omega)]
          · by_cases hcb : c.toNat < b.toNat
            · rw [if_neg hbc, if_pos hcb] at h2
              exact Bool.noConfusion h2
            · rw [if_pos (by omega)]
        · by_cases hba : b.toNat < a.toNat
          · rw [if_neg hab, if_pos hba] at h1
            exact Bool.noConfusion h1
          · by_cases hbc : b.toNat < c.toNat
            · rw [if_pos (by omega)]
            · by_cases hcb : c.toNat < b.toNat
              · rw [if_neg hbc, if_pos hcb] at h2
                exact Bool.noConfusion h2
              · rw [if_neg hab, if_neg hba] at h1
                rw [if_neg hbc, if_neg hcb] at h2
                rw [if_neg (by omega), if_neg (by omega)]
                exact ih bs cs h1 h2

theorem charListLe_antisymm : ∀ (x y : List Char),
    charListLe x y = true → charListLe y x = true → x = y := by
  intro x
  induction x with
  | nil =>
    intro y h1 h2
    cases y with
    | nil => rfl
    | cons b bs => exact Bool.noConfusion h2
  | cons a as ih =>
    intro y h1 h2
    cases y with
    | nil => exact Bool.noConfusion h1
    | cons b bs =>
      rw [charListLe] at h1 h2
      by_cases hab : a.toNat < b.toNat
      · rw [if_neg (by omega), if_pos hab] at h2
        exact Bool.noConfusion h2
      · by_cases hba : b.toNat < a.toNat
        · rw [if_neg hab, if_pos hba] at h1
          exact Bool.noConfusion h1
        · rw [if_neg hab, if_neg hba] at h1
          rw [if_neg hba, if_neg hab] at h2
          have hconv : a = b := char_toNat_inj (by omega)
          rw [hconv, ih bs h1 h2]

/-- Comparison used to sort query entries by parameter name.
`a.localeCompare(b)` is modelled as code-point string order, its behavior
in the default locale on the ASCII parameter names in use. -/
def entryLe (a b : String × String) : Prop :=
  charListLe a.1.data b.1.data = true

instance : DecidableRel entryLe := fun a b =>
  inferInstanceAs (Decidable (charListLe a.1.data b.1.data = true))

instance : IsTotal (String × String) entryLe :=
  ⟨fun a b => charListLe_total a.1.data b.1.data⟩

instance : IsTrans (String × String) entryLe :=
  ⟨fun a b c h1 h2 => charListLe_trans a.1.data b.1.data c.1.data h1 h2⟩

theorem entryLe_antisymm_names {p q : String × String}
    (h1 : entryLe p q) (h2 : entryLe q p) : p.1 = q.1 :=
  String.ext (charListLe_antisymm p.1.data q.1.data h1 h2)

/-- The sort `entries.sort(([a], [b]) => a.localeCompare(b))`: `Array.prototype.sort`
is required to be stable, and a stable comparator sort's output is the
unique name-sorted permutation preserving the relative order of equal-name
entries, realized here by insertion sort. -/
def sortEntriesByName (entries : List (String × String)) :
    List (String × String) :=
  List.insertionSort entryLe entries

/-- The function `buildCacheKeyFromUrl` of the cache module, taking the request pathname
and the decoded query entries in order of appearance: drop every entry
whose name lowercases to `api_key`, stable-sort the rest by name,
re-serialize as `name=value` pairs joined with `&`, and append to the
pathname behind `?` when non-empty. -/
def buildCacheKeyFromUrl (pathname : String)
    (entries : List (String × String)) : String :=
  let kept := stripApiKey entries
  let sorted := sortEntriesByName kept
  let query :=
    "&".intercalate (sorted.map (fun e => formEncode e.1 ++ "=" ++ formEncode e.2))
  if query = "" then pathname else pathname ++ "?" ++ query

theorem set_concat_length {α : Type} (l : List α) (x a : α) :
    (l ++ [x]).set l.length a = l ++ [a] := by
  induction l with
  | nil => rfl
  | cons b l ih =>
    show b :: (l ++ [x]).set l.length a = b :: (l ++ [a])
    rw [ih]

theorem jsFind_mem {α : Type} {p : α → Bool} {l : List α} {a : α}
    (h : jsFind p l = some a) : a ∈ l := by
  induction l with
  | nil => simp [jsFind] at h
  | cons b l ih =>
    by_cases hp : p b
    · simp only [jsFind, if_pos hp, Option.some.injEq] at h
      subst h
      exact List.mem_cons_self b l
    · simp only [jsFind, if_neg hp] at h
      exact List.mem_cons_of_mem b (ih h)

theorem jsFindIndex_append {α : Type} {p : α → Bool} {l : List α} {x : α}
    (h : jsFindIndex p l = none) (hx : p x = true) :
    jsFindIndex p (l ++ [x]) = some l.length := by
  induction l with
  | nil => simp [jsFindIndex, hx]
  | cons b l ih =>
    by_cases hp : p b
    · simp [jsFindIndex, hp] at h
    · simp only [jsFindIndex, if_neg hp, Option.map_eq_none'] at h
      show jsFindIndex p (b :: (l ++ [x])) = some (l.length + 1)
      simp [jsFindIndex, hp, ih h]

/-- Pairwise numeric distinctness of child ids within a parent-scoped
list, under a key projection. -/
def NumDistinct {α : Type} (key : α → JVal) (l : List α) : Prop :=
  l.Pairwise (fun a b => numEq (key a) (key b) = false)

instance {α : Type} (key : α → JVal) (l : List α) :
    Decidable (NumDistinct key l) :=
  inferInstanceAs (Decidable (l.Pairwise _))

theorem numDistinct_set_same_key {α : Type} {key : α → JVal} {l : List α}
    {i : Nat} {e x : α} (he : l[i]? = some e) (hk : key x = key e)
    (hl : NumDistinct key l) : NumDistinct key (l.set i x) := by
  unfold NumDistinct at hl ⊢
  apply pairwise_set (fun a b hab => by rw [numEq_symm]; exact hab) hl
  intro j hji b hb
  rw [hk]
  obtain ⟨hi2, hie⟩ := List.getElem?_eq_some.mp he
  obtain ⟨hj2, hjb⟩ := List.getElem?_eq_some.mp hb
  rw [List.pairwise_iff_getElem] at hl
  rcases Nat.lt_or_ge j i with h1 | h1
  · have h2 := hl j i hj2 hi2 h1
    rw [hjb, hie] at h2
    rw [numEq_symm]
    exact h2
  · have h2 := hl i j hi2 hj2 (by omega)
    rw [hie, hjb] at h2
    exact h2

theorem numDistinct_listUpsert {α : Type} (key : α → JVal) {k : JVal}
    {x : α} (hx : key x = k) {l : List α} (hl : NumDistinct key l) :
    NumDistinct key (listUpsert (fun a => numEq (key a) k) x l) := by
  cases h : jsFindIndex (fun a => numEq (key a) k) l with
  | none =>
    rw [listUpsert_notFound x h]
    unfold NumDistinct at hl ⊢
    rw [List.pairwise_append]
    refine ⟨hl, List.pairwise_singleton _ _, ?_⟩
    intro a ha b hb
    simp only [List.mem_singleton] at hb
    subst hb
    rw [hx]
    exact (jsFindIndex_none_iff _ l).mp h a ha
  | some i =>
    rw [listUpsert_found x h]
    obtain ⟨hlt, e, he, hpe⟩ := jsFindIndex_some h
    unfold NumDistinct at hl ⊢
    apply pairwise_set (fun a b hab => by rw [numEq_symm]; exact hab) hl
    intro j hji b hb
    by_contra hcon
    have hxb : numEq (key x) (key b) = true := by
      cases hcb : numEq (key x) (key b)
      · exact absurd hcb hcon
      · rfl
    have hbk : numEq (key b) k = true := by
      rw [← hx, numEq_symm]
      exact hxb
    have heb : numEq (key e) (key b) = true := numEq_trans_right hpe hbk
    obtain ⟨hi2, hie⟩ := List.getElem?_eq_some.mp he
    obtain ⟨hj2, hjb⟩ := List.getElem?_eq_some.mp hb
    rw [List.pairwise_iff_getElem] at hl
    rcases Nat.lt_or_ge j i with h1 | h1
    · have h2 := hl j i hj2 hi2 h1
      rw [hjb, hie, numEq_symm] at h2
      rw [h2] at heb
      exact Bool.noConfusion heb
    · have h2 := hl i j hi2 hj2 (by omega)
      rw [hie, hjb] at h2
      rw [h2] at heb
      exact Bool.noConfusion heb

/-- The invariant carried by every reachable episode list: episode ids are
pairwise numerically distinct, and so are the guest ids inside every
episode's guest array. -/
def goodEpisodes (l : List Episode) : Prop :=
  NumDistinct Episode.episode_id l ∧
    ∀ e ∈ l, NumDistinct Guest.id e.guest_stars

instance (l : List Episode) : Decidable (goodEpisodes l) :=
  inferInstanceAs (Decidable (And _ _))

theorem numEq_nan_right {a b : JVal} (h : jsToNumber b = none) :
    numEq a b = false := by
  unfold numEq
  rw [h]
  cases jsToNumber a <;> rfl

theorem runInsertEpisode_found {arr : List Episode} {p : EpisodeParams}
    {i : Nat} (hf : jsFindIndex (epMatch p.episode_id) arr = some i) :
    runInsertEpisode arr p = arr.set i (episodeRowOf arr p) := by
  unfold runInsertEpisode
  exact listUpsert_found _ hf

theorem runInsertEpisode_notFound {arr : List Episode} {p : EpisodeParams}
    (hf : jsFindIndex (epMatch p.episode_id) arr = none) :
    runInsertEpisode arr p = arr ++ [episodeRowOf arr p] := by
  unfold runInsertEpisode
  exact listUpsert_notFound _ hf

theorem episodeRowOf_guests_found {arr : List Episode} {p : EpisodeParams}
    {i : Nat} {e : Episode}
    (hf : jsFindIndex (epMatch p.episode_id) arr = some i)
    (he : arr[i]? = some e) :
    (episodeRowOf arr p).guest_stars = e.guest_stars := by
  show ((jsFind (epMatch p.episode_id) arr).map Episode.guest_stars).getD []
      = e.guest_stars
  rw [jsFind_eq hf he]
  rfl

theorem episodeRowOf_guests_notFound {arr : List Episode} {p : EpisodeParams}
    (hf : jsFindIndex (epMatch p.episode_id) arr = none) :
    (episodeRowOf arr p).guest_stars = [] := by
  show ((jsFind (epMatch p.episode_id) arr).map Episode.guest_stars).getD []
      = []
  rw [jsFind_none hf]
  rfl

theorem runInsertGuestStar_found {arr : List Episode} {p : GuestStarParams}
    {i : Nat} {e : Episode}
    (hf : jsFindIndex (epMatch p.episode_id) arr = some i)
    (he : arr[i]? = some e) :
    runInsertGuestStar arr p = some (arr.set i (addGuest p e)) := by
  unfold runInsertGuestStar
  simp only [hf, he]

theorem runInsertGuestStar_notFound {arr : List Episode} {p : GuestStarParams}
    {n : Int} (hn : jsToNumber p.episode_id = some n)
    (hf : jsFindIndex (epMatch p.episode_id) arr = none) :
    runInsertGuestStar arr p =
      some (arr ++ [{ placeholderEpisode p with guest_stars := [guestRowOf p] }]) := by
  have hmatch : epMatch p.episode_id (placeholderEpisode p) = true := by
    show numEq p.episode_id p.episode_id = true
    unfold numEq
    rw [hn]
    simp
  have h2 : jsFindIndex (epMatch p.episode_id) (arr ++ [placeholderEpisode p])
      = some arr.length := jsFindIndex_append hf hmatch
  have h3 : (arr ++ [placeholderEpisode p])[arr.length]?
      = some (placeholderEpisode p) := List.getElem?_concat_length ..
  unfold runInsertGuestStar
  simp only [hf, h2, h3]
  rw [set_concat_length]
  rfl

theorem runInsertGuestStar_nan {arr : List Episode} {p : GuestStarParams}
    (hn : jsToNumber p.episode_id = none) :
    runInsertGuestStar arr p = none := by
  have hall : ∀ (l : List Episode),
      jsFindIndex (epMatch p.episode_id) l = none := by
    intro l
    rw [jsFindIndex_none_iff]
    intro a _
    exact numEq_nan_right hn
  unfold runInsertGuestStar
  simp only [hall]

theorem episodeRowOf_guests_good {arr : List Episode} (p : EpisodeParams)
    (h2 : ∀ e ∈ arr, NumDistinct Guest.id e.guest_stars) :
    NumDistinct Guest.id (episodeRowOf arr p).guest_stars := by
  show NumDistinct Guest.id
    (((jsFind (epMatch p.episode_id) arr).map Episode.guest_stars).getD [])
  cases hj : jsFind (epMatch p.episode_id) arr with
  | none => exact List.Pairwise.nil
  | some e0 =>
    simp only [Option.map_some', Option.getD_some]
    exact h2 e0 (jsFind_mem hj)

theorem runInsertEpisode_good {arr : List Episode} (p : EpisodeParams)
    (h : goodEpisodes arr) : goodEpisodes (runInsertEpisode arr p) := by
  obtain ⟨h1, h2⟩ := h
  constructor
  · show NumDistinct Episode.episode_id
      (listUpsert (epMatch p.episode_id) (episodeRowOf arr p) arr)
    exact numDistinct_listUpsert Episode.episode_id
      (k := p.episode_id) (x := episodeRowOf arr p) rfl h1
  · intro e he
    unfold runInsertEpisode at he
    cases hf : jsFindIndex (epMatch p.episode_id) arr with
    | some i =>
      rw [listUpsert_found _ hf] at he
      rcases List.mem_or_eq_of_mem_set he with hmem | heq
      · exact h2 e hmem
      · subst heq
        exact episodeRowOf_guests_good p h2
    | none =>
      rw [listUpsert_notFound _ hf] at he
      rcases List.mem_append.mp he with hmem | hx
      · exact h2 e hmem
      · simp only [List.mem_singleton] at hx
        subst hx
        exact episodeRowOf_guests_good p h2

theorem runInsertGuestStar_good {arr : List Episode} (p : GuestStarParams)
    (h : goodEpisodes arr) :
    goodEpisodes ((runInsertGuestStar arr p).getD arr) := by
  cases hn : jsToNumber p.episode_id with
  | none =>
    rw [runInsertGuestStar_nan hn]
    exact h
  | some n =>
    obtain ⟨h1, h2⟩ := h
    cases hf : jsFindIndex (epMatch p.episode_id) arr with
    | some i =>
      obtain ⟨hlt, e, he, hpe⟩ := jsFindIndex_some hf
      rw [runInsertGuestStar_found hf he, Option.getD_some]
      constructor
      · exact numDistinct_set_same_key he rfl h1
      · intro e2 he2
        rcases List.mem_or_eq_of_mem_set he2 with hmem | heq
        · exact h2 e2 hmem
        · subst heq
          show NumDistinct Guest.id
            (listUpsert (fun g => numEq g.id p.guest_id) (guestRowOf p)
              e.guest_stars)
          exact numDistinct_listUpsert Guest.id
            (k := p.guest_id) (x := guestRowOf p) rfl
            (h2 e (List.getElem?_mem he))
    | none =>
      rw [runInsertGuestStar_notFound hn hf, Option.getD_some]
      constructor
      · have hps : ({ placeholderEpisode p with
            guest_stars := [guestRowOf p] } : Episode).episode_id
            = p.episode_id := rfl
        rw [← listUpsert_notFound _ hf]
        exact numDistinct_listUpsert Episode.episode_id hps h1
      · intro e2 he2
        rcases List.mem_append.mp he2 with hmem | hx
        · exact h2 e2 hmem
        · simp only [List.mem_singleton] at hx
          subst hx
          show NumDistinct Guest.id [guestRowOf p]
          exact List.pairwise_singleton _ _

/-- The cumulative effect on a guest array of upserting each incoming guest
payload in order, each keyed by `Number(g.id) === Number(guest_id)`: an
incoming guest replaces the first stored guest with a numerically equal id,
or is appended; stored guests not mentioned by the payload stay. -/
def mergeGuests (base : List Guest) (sid : JVal) (sn : Option Int)
    (lang : Option String) (eid : Int) (epn : Option Int)
    (gs : List GuestPayload) (now : Int) : List Guest :=
  gs.foldl
    (fun acc g =>
      listUpsert (fun x => numEq x.id (.num g.id))
        (guestRowOf (guestParamsOf sid sn lang eid epn g now)) acc)
    base

theorem fold_runInsertGuestStar (sid : JVal) (sn : Option Int)
    (lang : Option String) (eid : Int) (epn : Option Int) (now : Int) :
    ∀ (gs : List GuestPayload) (arr : List Episode) (i : Nat) (e : Episode),
      jsFindIndex (epMatch (.num eid)) arr = some i → arr[i]? = some e →
      gs.foldl
          (fun a g =>
            (runInsertGuestStar a
              (guestParamsOf sid sn lang eid epn g now)).getD a) arr
        = arr.set i
            { e with guest_stars := mergeGuests e.guest_stars sid sn lang eid epn gs now } := by
  intro gs
  induction gs with
  | nil =>
    intro arr i e hf he
    show arr = arr.set i { e with guest_stars := e.guest_stars }
    have : ({ e with guest_stars := e.guest_stars } : Episode) = e := rfl
    rw [this, set_getElem?_self he]
  | cons g gs ih =>
    intro arr i e hf he
    have hstep :
        runInsertGuestStar arr (guestParamsOf sid sn lang eid epn g now)
          = some (arr.set i (addGuest (guestParamsOf sid sn lang eid epn g now) e)) :=
      runInsertGuestStar_found hf he
    show List.foldl _ ((runInsertGuestStar arr (guestParamsOf sid sn lang eid epn g now)).getD arr) gs = _
    rw [hstep, Option.getD_some]
    have hpe : epMatch (.num eid) e = true := by
      obtain ⟨hlt, a, ha, hpa⟩ := jsFindIndex_some hf
      rw [he] at ha
      injection ha with ha2
      rw [ha2]
      exact hpa
    have hlt : i < arr.length := (jsFindIndex_some hf).1
    have hf2 : jsFindIndex (epMatch (.num eid))
        (arr.set i (addGuest (guestParamsOf sid sn lang eid epn g now) e))
          = some i := jsFindIndex_set hf hpe
    have he2 : (arr.set i (addGuest (guestParamsOf sid sn lang eid epn g now) e))[i]?
        = some (addGuest (guestParamsOf sid sn lang eid epn g now) e) :=
      List.getElem?_set_self hlt
    rw [ih _ i _ hf2 he2, List.set_set]
    rfl

/-- Episode lists reachable from the empty list through the two shim writes
that touch them (episode upserts and guest-star upserts); on the
caught-exception path of a guest-star upsert the stored list is unchanged. -/
inductive ReachableEpisodes : List Episode → Prop where
  | nil : ReachableEpisodes []
  | episode {l : List Episode} (p : EpisodeParams) (h : ReachableEpisodes l) :
      ReachableEpisodes (runInsertEpisode l p)
  | guest {l : List Episode} (p : GuestStarParams) (h : ReachableEpisodes l) :
      ReachableEpisodes ((runInsertGuestStar l p).getD l)

/-- Season lists reachable from the empty list through season upserts. -/
inductive ReachableSeasons : List Season → Prop where
  | nil : ReachableSeasons []
  | upsert {l : List Season} (p : SeasonParams) (h : ReachableSeasons l) :
      ReachableSeasons (runInsertSeason l p)

theorem reachableSeasons_numDistinct {l : List Season}
    (h : ReachableSeasons l) : NumDistinct Season.id l := by
  induction h with
  | nil => exact List.Pairwise.nil
  | @upsert l2 p h ih =>
    show NumDistinct Season.id
      (listUpsert (fun s => numEq s.id p.season_id) (seasonRowOf p) l2)
    exact numDistinct_listUpsert Season.id
      (k := p.season_id) (x := seasonRowOf p) rfl ih

theorem reachableEpisodes_good {l : List Episode}
    (h : ReachableEpisodes l) : goodEpisodes l := by
  induction h with
  | nil => exact ⟨List.Pairwise.nil, by intro e he; simp at he⟩
  | episode p h ih => exact runInsertEpisode_good p ih
  | guest p h ih => exact runInsertGuestStar_good p ih

theorem sorted_perm_nodup_names_eq :
    ∀ {l1 l2 : List (String × String)}, List.Perm l1 l2 →
      (l2.map Prod.fst).Nodup → List.Sorted entryLe l1 →
      List.Sorted entryLe l2 → l1 = l2 := by
  intro l1
  induction l1 with
  | nil =>
    intro l2 hp _ _ _
    exact (List.Perm.eq_nil hp.symm).symm
  | cons p t ih =>
    intro l2 hp hnd hs1 hs2
    cases l2 with
    | nil => exact absurd (List.Perm.eq_nil hp) (by simp)
    | cons q t2 =>
      have hpmem : p ∈ q :: t2 := hp.mem_iff.mp (List.mem_cons_self p t)
      have hqmem : q ∈ p :: t := hp.mem_iff.mpr (List.mem_cons_self q t2)
      have hpq : p = q := by
        rcases List.mem_cons.mp hpmem with h1 | h1
        · exact h1
        · rcases List.mem_cons.mp hqmem with h2 | h2
          · exact h2.symm
          · exfalso
            have hle1 : entryLe p q := List.rel_of_sorted_cons hs1 q h2
            have hle2 : entryLe q p := List.rel_of_sorted_cons hs2 p h1
            have hname : p.1 = q.1 := entryLe_antisymm_names hle1 hle2
            have hmem2 : p.1 ∈ t2.map Prod.fst :=
              List.mem_map_of_mem Prod.fst h1
            rw [List.map_cons] at hnd
            rw [hname] at hmem2
            exact (List.nodup_cons.mp hnd).1 hmem2
      subst hpq
      have ht : List.Perm t t2 := hp.cons_inv
      have hnd2 : (t2.map Prod.fst).Nodup := by
        rw [List.map_cons] at hnd
        exact (List.nodup_cons.mp hnd).2
      rw [ih ht hnd2 (List.Pairwise.of_cons hs1) (List.Pairwise.of_cons hs2)]

theorem sortEntries_eq_of_perm {l1 l2 : List (String × String)}
    (hp : List.Perm l1 l2) (hnd : (l1.map Prod.fst).Nodup) :
    sortEntriesByName l1 = sortEntriesByName l2 := by
  apply sorted_perm_nodup_names_eq
  · exact ((List.perm_insertionSort entryLe l1).trans hp).trans
      (List.perm_insertionSort entryLe l2).symm
  · have h2 : (l2.map Prod.fst).Nodup := ((hp.map Prod.fst).nodup_iff).mp hnd
    exact (((List.perm_insertionSort entryLe l2).map Prod.fst).nodup_iff).mpr h2
  · exact List.sorted_insertionSort entryLe l1
  · exact List.sorted_insertionSort entryLe l2

def demoGuestParams1 : GuestStarParams :=
  { series_id := .num 1, language := some "en", season_number := some 1,
    episode_id := .num 10, episode_number := some 3, guest_id := .num 1,
    name := some "Alice", original_name := none,
    character := some "Doctor", profile_path := none,
    order_index := some 0, updated_at := 100 }

def demoSeason (n : Int) : Season :=
  { id := .num n, season_number := some n, name := some "S",
    overview := none, poster_path := none, air_date := none,
    episode_count := some 8, vote_average := none,
    updated_at := some 100 }

def demoSeasons : List Season := [demoSeason 1, demoSeason 2, demoSeason 3]

def demoSeasonP : SeasonParams :=
  { series_id := .num 7, language := some "en", season_id := .num 2,
    season_number := some 2, name := some "Season Two",
    overview := some "o", poster_path := none, air_date := none,
    episode_count := some 10, vote_average := none, updated_at := 200 }

/-- C3: for each parent-scoped list (seasons, episodes, guest stars), an
upsert whose child id numerically matches an existing element replaces that
element in place at its current index, keeps the length, and leaves every
other element exactly as it was; an upsert with a new id appends at the end
and leaves all existing elements unchanged (for a guest star: appended at
the end of the owning episode's guest array, all other episodes untouched);
and each of the three upserts preserves pairwise numeric distinctness of
child ids — for guest upserts, both the episode ids and the guest ids
inside every episode. -/
theorem list_upsert_in_place_preserves_siblings :
    (∀ (arr : List Season) (p : SeasonParams) (i : Nat),
        jsFindIndex (fun s => numEq s.id p.season_id) arr = some i →
        runInsertSeason arr p = arr.set i (seasonRowOf p) ∧
        (runInsertSeason arr p).length = arr.length ∧
        ∀ j, j ≠ i → (runInsertSeason arr p)[j]? = arr[j]?) ∧
    (∀ (arr : List Season) (p : SeasonParams),
        jsFindIndex (fun s => numEq s.id p.season_id) arr = none →
        runInsertSeason arr p = arr ++ [seasonRowOf p] ∧
        ∀ j, j < arr.length → (runInsertSeason arr p)[j]? = arr[j]?) ∧
    (∀ (arr : List Episode) (p : EpisodeParams) (i : Nat),
        jsFindIndex (epMatch p.episode_id) arr = some i →
        runInsertEpisode arr p = arr.set i (episodeRowOf arr p) ∧
        (runInsertEpisode arr p).length = arr.length ∧
        ∀ j, j ≠ i → (runInsertEpisode arr p)[j]? = arr[j]?) ∧
    (∀ (arr : List Episode) (p : EpisodeParams),
        jsFindIndex (epMatch p.episode_id) arr = none →
        runInsertEpisode arr p = arr ++ [episodeRowOf arr p] ∧
        ∀ j, j < arr.length → (runInsertEpisode arr p)[j]? = arr[j]?) ∧
    (∀ (arr : List Episode) (p : GuestStarParams) (i : Nat) (e : Episode)
        (j : Nat),
        jsFindIndex (epMatch p.episode_id) arr = some i → arr[i]? = some e →
        jsFindIndex (fun g => numEq g.id p.guest_id) e.guest_stars = some j →
        runInsertGuestStar arr p = some (arr.set i { e with guest_stars := e.guest_stars.set j (guestRowOf p) }) ∧
        ∀ j2, j2 ≠ i → ((runInsertGuestStar arr p).getD arr)[j2]? = arr[j2]?) ∧
    (∀ (arr : List Episode) (p : GuestStarParams) (i : Nat) (e : Episode),
        jsFindIndex (epMatch p.episode_id) arr = some i → arr[i]? = some e →
        jsFindIndex (fun g => numEq g.id p.guest_id) e.guest_stars = none →
        runInsertGuestStar arr p = some (arr.set i { e with guest_stars := e.guest_stars ++ [guestRowOf p] }) ∧
        ∀ j2, j2 ≠ i → ((runInsertGuestStar arr p).getD arr)[j2]? = arr[j2]?) ∧
    (∀ (arr : List Season) (p : SeasonParams),
        NumDistinct Season.id arr →
        NumDistinct Season.id (runInsertSeason arr p)) ∧
    (∀ (arr : List Episode) (p : EpisodeParams),
        goodEpisodes arr → goodEpisodes (runInsertEpisode arr p)) ∧
    (∀ (arr : List Episode) (p : GuestStarParams),
        goodEpisodes arr →
        goodEpisodes ((runInsertGuestStar arr p).getD arr)) := by
  refine ⟨?_, ?_, ?_, ?_, ?_, ?_, ?_, ?_, ?_⟩
  · intro arr p i hf
    have heq : runInsertSeason arr p = arr.set i (seasonRowOf p) :=
      listUpsert_found _ hf
    refine ⟨heq, ?_, ?_⟩
    · rw [heq, List.length_set]
    · intro j hj
      rw [heq, List.getElem?_set_ne (by omega)]
  · intro arr p hf
    have heq : runInsertSeason arr p = arr ++ [seasonRowOf p] :=
      listUpsert_notFound _ hf
    refine ⟨heq, ?_⟩
    intro j hj
    rw [heq, List.getElem?_append_left hj]
  · intro arr p i hf
    have heq := runInsertEpisode_found hf
    refine ⟨heq, ?_, ?_⟩
    · rw [heq, List.length_set]
    · intro j hj
      rw [heq, List.getElem?_set_ne (by omega)]
  · intro arr p hf
    have heq := runInsertEpisode_notFound hf
    refine ⟨heq, ?_⟩
    intro j hj
    rw [heq, List.getElem?_append_left hj]
  · intro arr p i e j hf he hg
    have hadd : addGuest p e
        = { e with guest_stars := e.guest_stars.set j (guestRowOf p) } := by
      show { e with guest_stars := listUpsert (fun g => numEq g.id p.guest_id) (guestRowOf p) e.guest_stars }
        = { e with guest_stars := e.guest_stars.set j (guestRowOf p) }
      rw [listUpsert_found _ hg]
    have heq := runInsertGuestStar_found hf he
    rw [hadd] at heq
    refine ⟨heq, ?_⟩
    intro j2 hj2
    rw [heq, Option.getD_some, List.getElem?_set_ne (by omega)]
  · intro arr p i e hf he hg
    have hadd : addGuest p e
        = { e with guest_stars := e.guest_stars ++ [guestRowOf p] } := by
      show { e with guest_stars := listUpsert (fun g => numEq g.id p.guest_id) (guestRowOf p) e.guest_stars }
        = { e with guest_stars := e.guest_stars ++ [guestRowOf p] }
      rw [listUpsert_notFound _ hg]
    have heq := runInsertGuestStar_found hf he
    rw [hadd] at heq
    refine ⟨heq, ?_⟩
    intro j2 hj2
    rw [heq, Option.getD_some, List.getElem?_set_ne (by omega)]
  · intro arr p h
    show NumDistinct Season.id
      (listUpsert (fun s => numEq s.id p.season_id) (seasonRowOf p) arr)
    exact numDistinct_listUpsert Season.id
      (k := p.season_id) (x := seasonRowOf p) rfl h
  · intro arr p h
    exact runInsertEpisode_good p h
  · intro arr p h
    exact runInsertGuestStar_good p h

def demoGuestParams2 : GuestStarParams :=
  { series_id := .num 1, language := some "en", season_number := some 1,
    episode_id := .num 10, episode_number := some 3, guest_id := .num 2,
    name := some "Bob", original_name := none, character := some "Nurse",
    profile_path := none, order_index := some 1, updated_at := 150 }

/-- The episode stored after the first demo guest-star upsert: the
placeholder for episode 10 holding exactly guest 1. -/
def demoPlaceholderWithGuest1 : Episode :=
  { placeholderEpisode demoGuestParams1 with guest_stars := [guestRowOf demoGuestParams1] }

/-- Witness for C3 at concrete inputs: upserting the season with id 2 into
a three-element season list replaces index 1 in place, keeps length 3, and
leaves the elements at indices 0 and 2 untouched; and a guest upsert with
the new guest id 2 onto the episode holding only guest 1 appends that
guest at the end of the episode's guest array. -/
theorem list_upsert_in_place_preserves_siblings_witness :
    (runInsertSeason demoSeasons demoSeasonP
      = demoSeasons.set 1 (seasonRowOf demoSeasonP) ∧
    (runInsertSeason demoSeasons demoSeasonP).length = 3 ∧
    (runInsertSeason demoSeasons demoSeasonP)[0]? = demoSeasons[0]? ∧
    (runInsertSeason demoSeasons demoSeasonP)[2]? = demoSeasons[2]?) ∧
    runInsertGuestStar ((runInsertGuestStar [] demoGuestParams1).getD [])
        demoGuestParams2
      = some (((runInsertGuestStar [] demoGuestParams1).getD []).set 0
          { demoPlaceholderWithGuest1 with guest_stars := demoPlaceholderWithGuest1.guest_stars ++ [guestRowOf demoGuestParams2] }) := by
  have h := list_upsert_in_place_preserves_siblings.1 demoSeasons demoSeasonP
    1 (by decide)
  have hc := list_upsert_in_place_preserves_siblings.2.2.2.2.2.1
  have h2 := hc ((runInsertGuestStar [] demoGuestParams1).getD [])
    demoGuestParams2 0 demoPlaceholderWithGuest1 (by decide) (by decide)
    (by decide)
  exact ⟨⟨h.1, h.2.1, h.2.2 0 (by decide), h.2.2 2 (by decide)⟩, h2.1⟩

/-- The episode row written by an episode upsert that completes a
placeholder: full scalar fields from the bound parameters, with the given
carried guest array. -/
def completedEpisode (q : EpisodeParams) (gs : List Guest) : Episode :=
  { series_id := q.series_id, id := q.episode_id, episode_id := q.episode_id,
    episode_number := q.episode_number, name := q.name,
    overview := q.overview, still_path := q.still_path,
    air_date := q.air_date, vote_average := q.vote_average,
    vote_count := q.vote_count, updated_at := some q.updated_at,
    guest_stars := gs }

/-- C4: a guest-star upsert whose episode id (a proper number) matches no
stored episode first pushes a placeholder carrying only identifying fields
and an empty guest array, then upserts the guest into it, yielding the old
list plus the placeholder holding exactly that guest; the store-level
operation rewrites the whole list under the same parent key and touches no
other key; and a later episode upsert whose id numerically matches the
placeholder replaces it with the full episode row, carrying the guest
array forward. -/
theorem guest_star_placeholder_flow :
    (∀ (arr : List Episode) (p : GuestStarParams) (n : Int),
        jsToNumber p.episode_id = some n →
        jsFindIndex (epMatch p.episode_id) arr = none →
        runInsertGuestStar arr p
          = some (arr ++ [{ placeholderEpisode p with guest_stars := [guestRowOf p] }])) ∧
    (∀ (σ : EpisodesStore) (p : GuestStarParams) (arr2 : List Episode),
        runInsertGuestStar
            ((σ (episodesKey p.series_id p.season_number p.language)).getD [])
            p = some arr2 →
        (runInsertGuestStarStore σ p)
            (episodesKey p.series_id p.season_number p.language)
          = some arr2 ∧
        ∀ k, k ≠ episodesKey p.series_id p.season_number p.language →
          (runInsertGuestStarStore σ p) k = σ k) ∧
    (∀ (arr : List Episode) (p : GuestStarParams) (q : EpisodeParams)
        (n : Int),
        jsToNumber p.episode_id = some n →
        jsFindIndex (epMatch p.episode_id) arr = none →
        numEq q.episode_id p.episode_id = true →
        runInsertEpisode ((runInsertGuestStar arr p).getD arr) q
          = arr ++ [completedEpisode q [guestRowOf p]]) := by
  refine ⟨?_, ?_, ?_⟩
  · intro arr p n hn hf
    exact runInsertGuestStar_notFound hn hf
  · intro σ p arr2 h
    constructor
    · show runInsertGuestStarStore σ p
        (episodesKey p.series_id p.season_number p.language) = some arr2
      unfold runInsertGuestStarStore
      simp [h]
    · intro k hk
      show runInsertGuestStarStore σ p k = σ k
      unfold runInsertGuestStarStore
      simp only [h, if_neg hk]
  · intro arr p q n hn hf hq
    rw [runInsertGuestStar_notFound hn hf, Option.getD_some]
    have hph : epMatch q.episode_id
        ({ placeholderEpisode p with guest_stars := [guestRowOf p] } : Episode)
          = true := by
      show numEq p.episode_id q.episode_id = true
      rw [numEq_symm]
      exact hq
    have hnone : jsFindIndex (epMatch q.episode_id) arr = none := by
      rw [jsFindIndex_none_iff]
      intro a ha
      by_contra hcon
      have hak : numEq a.episode_id q.episode_id = true := by
        cases hc2 : numEq a.episode_id q.episode_id
        · exact absurd hc2 hcon
        · rfl
      have hpk : numEq p.episode_id q.episode_id = true := by
        rw [numEq_symm]
        exact hq
      have : numEq a.episode_id p.episode_id = true :=
        numEq_trans_right hak hpk
      have hfa : numEq a.episode_id p.episode_id = false :=
        (jsFindIndex_none_iff (epMatch p.episode_id) arr).mp hf a ha
      rw [hfa] at this
      exact Bool.noConfusion this
    have hf2 : jsFindIndex (epMatch q.episode_id)
        (arr ++ [{ placeholderEpisode p with guest_stars := [guestRowOf p] }])
          = some arr.length := jsFindIndex_append hnone hph
    have he2 : (arr ++ [{ placeholderEpisode p with guest_stars := [guestRowOf p] }])[arr.length]?
        = some ({ placeholderEpisode p with guest_stars := [guestRowOf p] } : Episode) :=
      List.getElem?_concat_length ..
    rw [runInsertEpisode_found hf2, set_concat_length]
    show arr ++ [episodeRowOf _ q] = arr ++ [completedEpisode q [guestRowOf p]]
    unfold episodeRowOf completedEpisode
    rw [jsFind_eq hf2 he2]
    rfl

/-- Witness for C4: on the empty episode list, the guest-star upsert for
episode 10 / guest 1 stores exactly one placeholder episode whose guest
array holds that guest. -/
theorem guest_star_placeholder_flow_witness :
    runInsertGuestStar [] demoGuestParams1
      = some [{ placeholderEpisode demoGuestParams1 with guest_stars := [guestRowOf demoGuestParams1] }] :=
  guest_star_placeholder_flow.1 [] demoGuestParams1 10 (by decide) (by decide)

def demoEp10 : Episode :=
  { series_id := .num 1, id := .num 10, episode_id := .num 10,
    episode_number := some 3, name := some "Pilot", overview := none,
    still_path := none, air_date := none, vote_average := none,
    vote_count := some 12, updated_at := some 100, guest_stars := [] }

def demoEpParamsStr : EpisodeParams :=
  { series_id := .num 1, language := some "en", season_number := some 1,
    episode_id := .str "10", episode_number := some 3, name := some "Pilot",
    overview := some "o", still_path := none, air_date := none,
    vote_average := none, vote_count := some 13, updated_at := 200 }

/-- C10: all three list upserts match the existing element through
`Number(...)` coercion of ids; consequently every season list and every
episode list reachable from the empty list keeps its child ids (and, for
episodes, the guest ids inside each element) pairwise numerically
distinct, and an episode upsert whose id is the decimal string form of an
existing numeric id replaces that element in place, leaving the length
unchanged, instead of appending a duplicate. -/
theorem upsert_numeric_id_invariants :
    (∀ l, ReachableSeasons l → NumDistinct Season.id l) ∧
    (∀ l, ReachableEpisodes l →
        NumDistinct Episode.episode_id l ∧
        ∀ e ∈ l, NumDistinct Guest.id e.guest_stars) ∧
    (∀ (l : List Episode) (p : EpisodeParams) (n : Int),
        p.episode_id = .str (jsIntToString n) →
        (JVal.num n) ∈ l.map Episode.episode_id →
        (runInsertEpisode l p).length = l.length) := by
  refine ⟨?_, ?_, ?_⟩
  · intro l h
    exact reachableSeasons_numDistinct h
  · intro l h
    exact reachableEpisodes_good h
  · intro l p n hp hmem
    obtain ⟨e, he, hid⟩ := List.mem_map.mp hmem
    have hpe : epMatch p.episode_id e = true := by
      show numEq e.episode_id p.episode_id = true
      rw [hid, hp]
      unfold numEq
      rw [jsToNumber_intString]
      simp [jsToNumber]
    cases hf : jsFindIndex (epMatch p.episode_id) l with
    | none =>
      have := (jsFindIndex_none_iff (epMatch p.episode_id) l).mp hf e he
      rw [hpe] at this
      exact Bool.noConfusion this
    | some i =>
      rw [runInsertEpisode_found hf, List.length_set]

/-- Witness for C10: a concrete reachable season list and a reachable
episode list (built by a guest-star upsert) satisfy the distinctness
invariants, and upserting with the string id "10" onto a list holding
numeric episode id 10 keeps the length at one. -/
theorem upsert_numeric_id_invariants_witness :
    NumDistinct Season.id (runInsertSeason [] demoSeasonP) ∧
    NumDistinct Episode.episode_id
      ((runInsertGuestStar [] demoGuestParams1).getD []) ∧
    (runInsertEpisode [demoEp10] demoEpParamsStr).length = 1 := by
  refine ⟨?_, ?_, ?_⟩
  · exact upsert_numeric_id_invariants.1 _
      (ReachableSeasons.upsert demoSeasonP ReachableSeasons.nil)
  · exact (upsert_numeric_id_invariants.2.1 _
      (ReachableEpisodes.guest demoGuestParams1 ReachableEpisodes.nil)).1
  · exact upsert_numeric_id_invariants.2.2 [demoEp10] demoEpParamsStr 10
      (by decide) (by decide)

def demoGuestPayload2 : GuestPayload :=
  { id := 2, name := some "Bob", original_name := none,
    character := some "Nurse", profile_path := none, order := some 1 }

def demoEpisodePayload2 : EpisodePayload :=
  { id := 10, episode_number := some 3, name := some "Pilot",
    overview := none, still_path := none, air_date := none,
    vote_average := none, vote_count := some 5,
    guest_stars := some [demoGuestPayload2] }

/-- C1 counterexample: after a guest-star upsert stores guest 1 on episode
10, an episode upsert for id 10 that explicitly carries the guest list
[guest 2] leaves the stored guest array as [guest 1, guest 2] — the
incoming guests are merged in by id, the stored field does not become the
incoming value. -/
theorem episode_upsert_redefined_guests_not_replaced :
    ((upsertOneEpisode ((runInsertGuestStar [] demoGuestParams1).getD [])
        (.num 1) (some 1) (some "en") demoEpisodePayload2 200).head?).map
          Episode.guest_stars
      = some [guestRowOf demoGuestParams1,
          guestRowOf (guestParamsOf (.num 1) (some 1) (some "en") 10 (some 3)
            demoGuestPayload2 200)] ∧
    ¬ ((upsertOneEpisode ((runInsertGuestStar [] demoGuestParams1).getD [])
        (.num 1) (some 1) (some "en") demoEpisodePayload2 200).head?).map
          Episode.guest_stars
      = some [guestRowOf (guestParamsOf (.num 1) (some 1) (some "en") 10
          (some 3) demoGuestPayload2 200)] :=
  ⟨by decide, by decide⟩

/-- C1 (amended): in an episode upsert, when the existing element with a
numerically equal id sits at index `i` and the incoming payload has no
guest-star array, the stored guest array at `i` is carried forward
unchanged (and siblings are untouched); when the payload carries a
guest-star array, the stored array at `i` becomes the incoming guests
merged by guest id into the previously stored array (stored guests the
payload does not mention survive); an episode not previously present is
appended with an empty guest array, into which any accompanying guests are
then merged. -/
theorem episode_upsert_guest_star_merge :
    (∀ (arr : List Episode) (sid : JVal) (sn : Option Int)
        (lang : Option String) (e : EpisodePayload) (now : Int) (i : Nat),
        e.guest_stars = none →
        jsFindIndex (epMatch (.num e.id)) arr = some i →
        (upsertOneEpisode arr sid sn lang e now)[i]?.map Episode.guest_stars
          = arr[i]?.map Episode.guest_stars ∧
        ∀ j, j ≠ i →
          (upsertOneEpisode arr sid sn lang e now)[j]? = arr[j]?) ∧
    (∀ (arr : List Episode) (sid : JVal) (sn : Option Int)
        (lang : Option String) (e : EpisodePayload) (now : Int)
        (gs : List GuestPayload) (i : Nat),
        e.guest_stars = some gs →
        jsFindIndex (epMatch (.num e.id)) arr = some i →
        (upsertOneEpisode arr sid sn lang e now)[i]?.map Episode.guest_stars
          = arr[i]?.map (fun old => mergeGuests old.guest_stars sid sn lang e.id e.episode_number gs now)) ∧
    (∀ (arr : List Episode) (sid : JVal) (sn : Option Int)
        (lang : Option String) (e : EpisodePayload) (now : Int),
        e.guest_stars = none →
        jsFindIndex (epMatch (.num e.id)) arr = none →
        upsertOneEpisode arr sid sn lang e now
          = arr ++ [episodeRowOf arr (episodeParamsOf sid sn lang e now)] ∧
        (episodeRowOf arr (episodeParamsOf sid sn lang e now)).guest_stars
          = []) ∧
    (∀ (arr : List Episode) (sid : JVal) (sn : Option Int)
        (lang : Option String) (e : EpisodePayload) (now : Int)
        (gs : List GuestPayload),
        e.guest_stars = some gs →
        jsFindIndex (epMatch (.num e.id)) arr = none →
        (upsertOneEpisode arr sid sn lang e now)[arr.length]?.map
            Episode.guest_stars
          = some (mergeGuests [] sid sn lang e.id e.episode_number gs now)) := by
  refine ⟨?_, ?_, ?_, ?_⟩
  · intro arr sid sn lang e now i hgs hf
    obtain ⟨hlt, e0, he0, hpe0⟩ := jsFindIndex_some hf
    have hrun : upsertOneEpisode arr sid sn lang e now
        = runInsertEpisode arr (episodeParamsOf sid sn lang e now) := by
      simp only [upsertOneEpisode, hgs]
    rw [hrun, runInsertEpisode_found hf]
    constructor
    · rw [List.getElem?_set_self hlt, he0, Option.map_some',
        Option.map_some', episodeRowOf_guests_found hf he0]
    · intro j hj
      rw [List.getElem?_set_ne (by omega)]
  · intro arr sid sn lang e now gs i hgs hf
    obtain ⟨hlt, e0, he0, hpe0⟩ := jsFindIndex_some hf
    have hrun : upsertOneEpisode arr sid sn lang e now
        = gs.foldl
            (fun a g =>
              (runInsertGuestStar a
                (guestParamsOf sid sn lang e.id e.episode_number g now)).getD a)
            (runInsertEpisode arr (episodeParamsOf sid sn lang e now)) := by
      simp only [upsertOneEpisode, hgs]
    have hprow : epMatch (.num e.id)
        (episodeRowOf arr (episodeParamsOf sid sn lang e now)) = true :=
      numEq_num_self e.id
    have hf2 : jsFindIndex (epMatch (.num e.id))
        (arr.set i (episodeRowOf arr (episodeParamsOf sid sn lang e now)))
          = some i := jsFindIndex_set hf hprow
    have he2 : (arr.set i (episodeRowOf arr
        (episodeParamsOf sid sn lang e now)))[i]?
          = some (episodeRowOf arr (episodeParamsOf sid sn lang e now)) :=
      List.getElem?_set_self hlt
    rw [hrun, runInsertEpisode_found hf,
      fold_runInsertGuestStar sid sn lang e.id e.episode_number now gs _ i _
        hf2 he2,
      List.set_set, List.getElem?_set_self hlt, he0, Option.map_some',
      Option.map_some']
    rw [show (episodeRowOf arr (episodeParamsOf sid sn lang e now)).guest_stars = e0.guest_stars from episodeRowOf_guests_found hf he0]
  · intro arr sid sn lang e now hgs hf
    have hrun : upsertOneEpisode arr sid sn lang e now
        = runInsertEpisode arr (episodeParamsOf sid sn lang e now) := by
      simp only [upsertOneEpisode, hgs]
    exact ⟨by rw [hrun, runInsertEpisode_notFound hf],
      episodeRowOf_guests_notFound hf⟩
  · intro arr sid sn lang e now gs hgs hf
    have hrun : upsertOneEpisode arr sid sn lang e now
        = gs.foldl
            (fun a g =>
              (runInsertGuestStar a
                (guestParamsOf sid sn lang e.id e.episode_number g now)).getD a)
            (runInsertEpisode arr (episodeParamsOf sid sn lang e now)) := by
      simp only [upsertOneEpisode, hgs]
    have hprow : epMatch (.num e.id)
        (episodeRowOf arr (episodeParamsOf sid sn lang e now)) = true :=
      numEq_num_self e.id
    have hf2 : jsFindIndex (epMatch (.num e.id))
        (arr ++ [episodeRowOf arr (episodeParamsOf sid sn lang e now)])
          = some arr.length := jsFindIndex_append hf hprow
    have he2 : (arr ++ [episodeRowOf arr
        (episodeParamsOf sid sn lang e now)])[arr.length]?
          = some (episodeRowOf arr (episodeParamsOf sid sn lang e now)) :=
      List.getElem?_concat_length ..
    rw [hrun, runInsertEpisode_notFound hf,
      fold_runInsertGuestStar sid sn lang e.id e.episode_number now gs _
        arr.length _ hf2 he2,
      set_concat_length, List.getElem?_concat_length, Option.map_some']
    rw [show (episodeRowOf arr (episodeParamsOf sid sn lang e now)).guest_stars = [] from episodeRowOf_guests_notFound hf]

/-- Witness for C1 at a concrete input: upserting episode 10 with an
explicit guest list over the list created by a prior guest-star upsert
yields, at index 0, exactly the merge of the incoming guests into the
previously stored guest array. -/
theorem episode_upsert_guest_star_merge_witness :
    (upsertOneEpisode ((runInsertGuestStar [] demoGuestParams1).getD [])
        (.num 1) (some 1) (some "en") demoEpisodePayload2 200)[0]?.map
          Episode.guest_stars
      = ((runInsertGuestStar [] demoGuestParams1).getD [])[0]?.map
          (fun old => mergeGuests old.guest_stars (.num 1) (some 1)
            (some "en") demoEpisodePayload2.id
            demoEpisodePayload2.episode_number [demoGuestPayload2] 200) :=
  episode_upsert_guest_star_merge.2.1
    ((runInsertGuestStar [] demoGuestParams1).getD []) (.num 1) (some 1)
    (some "en") demoEpisodePayload2 200 [demoGuestPayload2] 0 (by decide)
    (by decide)

def demoEntriesA : List (String × String) := [("a", "1"), ("a", "2")]

def demoEntriesB : List (String × String) := [("a", "2"), ("a", "1")]

/-- C5 counterexample: the query strings `a=1&a=2` and `a=2&a=1` carry the
same multiset of (name, value) pairs, yet the derived keys differ — the
sort compares names only and is stable, so same-name pairs keep their
input order and the claimed determinism over pair multisets fails. -/
theorem cache_key_repeated_name_order_sensitive :
    List.Perm demoEntriesA demoEntriesB ∧
    buildCacheKeyFromUrl "/p" demoEntriesA
      ≠ buildCacheKeyFromUrl "/p" demoEntriesB :=
  ⟨by decide, by decide⟩

/-- C5 (amended): `buildCacheKeyFromUrl` is order-insensitive whenever no
parameter name surviving the credential filter is repeated: two entry
lists that are permutations of each other with pairwise distinct surviving
names derive the same key; and a parameter whose name lowercases to
`api_key` never influences the key, wherever it sits and in any casing. -/
theorem cache_key_canonicalization :
    (∀ (path : String) (l1 l2 : List (String × String)),
        List.Perm l1 l2 → ((stripApiKey l1).map Prod.fst).Nodup →
        buildCacheKeyFromUrl path l1 = buildCacheKeyFromUrl path l2) ∧
    (∀ (path : String) (l1 l2 : List (String × String)) (k v : String),
        strToLower k = "api_key" →
        buildCacheKeyFromUrl path (l1 ++ (k, v) :: l2)
          = buildCacheKeyFromUrl path (l1 ++ l2)) := by
  constructor
  · intro path l1 l2 hp hnd
    have hkept : List.Perm (stripApiKey l1) (stripApiKey l2) :=
      hp.filter (fun e : String × String => strToLower e.1 != "api_key")
    have hsort : sortEntriesByName (stripApiKey l1)
        = sortEntriesByName (stripApiKey l2) :=
      sortEntries_eq_of_perm hkept hnd
    simp only [buildCacheKeyFromUrl]
    rw [hsort]
  · intro path l1 l2 k v hk
    have hdrop : stripApiKey (l1 ++ (k, v) :: l2) = stripApiKey (l1 ++ l2) := by
      unfold stripApiKey
      rw [List.filter_append, List.filter_append, List.filter_cons]
      have hfalse : (strToLower (k, v).1 != "api_key") = false := by
        simp [hk]
      rw [hfalse]
      simp
    simp only [buildCacheKeyFromUrl]
    rw [hdrop]

/-- Witness for C5: the keys derived from `/x?b=2&a=1` and `/x?a=1&b=2`
coincide, the names being distinct after the filter. -/
theorem cache_key_canonicalization_witness :
    buildCacheKeyFromUrl "/x" [("b", "2"), ("a", "1")]
      = buildCacheKeyFromUrl "/x" [("a", "1"), ("b", "2")] :=
  cache_key_canonicalization.1 "/x" [("b", "2"), ("a", "1")]
    [("a", "1"), ("b", "2")] (by decide) (by decide)

/-- A movie row template for concrete instances; fields other than the
rating pair and the timestamp play no role in the freshness policy. -/
def demoMovieRowBase : MovieRow :=
  { tmdb_id := .num 27205, title := some "Inception", overview := none,
    release_date := none, poster_path := none, genres := "[]",
    rating := none, rating_count := none, director_name := none,
    cast_names := "[]", cast_profile_paths := "[]",
    updated_at := 1700000000 }

/-- A movie row with zero rating data aged one second under the staleness
threshold relative to the reference instant 1700000000. -/
def demoMovieRowZeroFresh : MovieRow :=
  { demoMovieRowBase with rating := some 0, rating_count := some 0, updated_at := 1700000000 - CACHE_INTERVAL_SECONDS + 1 }

/-- C6 counterexample: a movie row aged one second under the threshold but
carrying rating 0 and rating count 0 still refreshes, so the strict age
boundary alone does not decide staleness for every present record. -/
theorem movie_fresh_age_still_stale :
    demoMovieRowZeroFresh.updated_at
      = 1700000000 - CACHE_INTERVAL_SECONDS + 1 ∧
    movieShouldRefresh (some demoMovieRowZeroFresh) 1700000000 = true :=
  ⟨rfl, by decide⟩

/-- C6 (amended): the age check is a strict threshold with the 30-day
constant: an absent record is always stale; a present record aged one
second over the threshold is stale; one aged one second under it is fresh
— for series rows unconditionally, for movie rows provided the
zero-rating guard does not fire (a movie row with rating and rating count
both zero refreshes regardless of age, see the claim on the rating
guard). -/
theorem freshness_strict_boundary :
    CACHE_INTERVAL_SECONDS = 2592000 ∧
    (∀ now, seriesShouldRefresh none now = true) ∧
    (∀ now, movieShouldRefresh none now = true) ∧
    (∀ (r : SeriesRow) (now : Int),
        r.updated_at = now - CACHE_INTERVAL_SECONDS - 1 →
        seriesShouldRefresh (some r) now = true) ∧
    (∀ (r : SeriesRow) (now : Int),
        r.updated_at = now - CACHE_INTERVAL_SECONDS + 1 →
        seriesShouldRefresh (some r) now = false) ∧
    (∀ (m : MovieRow) (now : Int),
        m.updated_at = now - CACHE_INTERVAL_SECONDS - 1 →
        movieShouldRefresh (some m) now = true) ∧
    (∀ (m : MovieRow) (now : Int),
        m.updated_at = now - CACHE_INTERVAL_SECONDS + 1 →
        (m.rating.getD 0 == 0 && m.rating_count.getD 0 == 0) = false →
        movieShouldRefresh (some m) now = false) := by
  refine ⟨rfl, fun now => rfl, fun now => rfl, ?_, ?_, ?_, ?_⟩
  · intro r now h
    simp only [seriesShouldRefresh, h, decide_eq_true_eq]
    omega
  · intro r now h
    simp only [seriesShouldRefresh, h, decide_eq_false_iff_not]
    omega
  · intro m now h
    simp only [movieShouldRefresh, h]
    by_cases hc : (m.rating.getD 0 == 0 && m.rating_count.getD 0 == 0) = true
    · simp [hc]
    · rw [Bool.not_eq_true] at hc
      simp only [hc, Bool.false_eq_true, if_false, decide_eq_true_eq]
      omega
  · intro m now h hc
    simp only [movieShouldRefresh, h, hc, Bool.false_eq_true, if_false,
      decide_eq_false_iff_not]
    omega

/-- A series row template for concrete freshness instances. -/
def demoSeriesRowAt (u : Int) : SeriesRow :=
  { tmdb_id := .num 1399, genre_ids := some [], original_language := none,
    overview := none, original_name := none, created_by := some [],
    number_of_episodes := some 0, number_of_seasons := some 0,
    poster_path := none, first_air_date := none, name := none,
    vote_average := none, vote_count := none, updated_at := u,
    seasons := none }

/-- A movie row with a non-zero rating count at the given timestamp. -/
def demoMovieRowRatedAt (u : Int) : MovieRow :=
  { demoMovieRowBase with rating_count := some 100, updated_at := u }

/-- Witness for C6 at concrete rows one second on each side of the
boundary (the movie rows carry a non-zero rating count so the rating guard
stays quiet). -/
theorem freshness_strict_boundary_witness :
    seriesShouldRefresh
      (some (demoSeriesRowAt (1700000000 - CACHE_INTERVAL_SECONDS - 1)))
      1700000000 = true ∧
    seriesShouldRefresh
      (some (demoSeriesRowAt (1700000000 - CACHE_INTERVAL_SECONDS + 1)))
      1700000000 = false ∧
    movieShouldRefresh
      (some (demoMovieRowRatedAt (1700000000 - CACHE_INTERVAL_SECONDS - 1)))
      1700000000 = true ∧
    movieShouldRefresh
      (some (demoMovieRowRatedAt (1700000000 - CACHE_INTERVAL_SECONDS + 1)))
      1700000000 = false := by
  refine ⟨?_, ?_, ?_, ?_⟩
  · exact freshness_strict_boundary.2.2.2.1 _ 1700000000 rfl
  · exact freshness_strict_boundary.2.2.2.2.1 _ 1700000000 rfl
  · exact freshness_strict_boundary.2.2.2.2.2.1 _ 1700000000 rfl
  · exact freshness_strict_boundary.2.2.2.2.2.2 _ 1700000000 rfl (by decide)

/-- C7: a movie row (stored by the by-channel or by-id insert) whose rating
and rating count are both exactly zero is refreshed regardless of its age —
in particular right after an upsert stamping `updated_at = now` — while a
row upserted with rating 8.4 and rating count 1000 is served, not
refreshed, immediately afterwards. -/
theorem movie_zero_rating_policy :
    (∀ (r : MovieRow) (now : Int),
        movieShouldRefresh
          (some { r with rating := some 0, rating_count := some 0 }) now
          = true) ∧
    (∀ (p : MovieParams) (now : Int),
        movieShouldRefresh
          (some (movieByIdRow
            { p with rating := some 0, rating_count := some 0, updated_at := now }))
          now = true) ∧
    (∀ (p : MovieParams) (now : Int),
        movieShouldRefresh
          (some (movieByChannelRow
            { p with rating := some 0, rating_count := some 0, updated_at := now }))
          now = true) ∧
    (∀ (p : MovieParams) (now : Int),
        movieShouldRefresh
          (some (movieByIdRow
            { p with rating := some ((42 : Rat) / 5), rating_count := some 1000, updated_at := now }))
          now = false) ∧
    (∀ (p : MovieParams) (now : Int),
        movieShouldRefresh
          (some (movieByChannelRow
            { p with rating := some ((42 : Rat) / 5), rating_count := some 1000, updated_at := now }))
          now = false) := by
  refine ⟨?_, ?_, ?_, ?_, ?_⟩
  · intro r now
    simp [movieShouldRefresh]
  · intro p now
    simp [movieShouldRefresh, movieByIdRow]
  · intro p now
    simp [movieShouldRefresh, movieByChannelRow]
  · intro p now
    simp only [movieShouldRefresh, movieByIdRow, Option.getD_some]
    norm_num [CACHE_INTERVAL_SECONDS]
  · intro p now
    simp only [movieShouldRefresh, movieByChannelRow, Option.getD_some]
    norm_num [CACHE_INTERVAL_SECONDS]

def demoFreshEmptyGuestsEp : Episode :=
  { series_id := .num 1, id := .num 5, episode_id := .num 5,
    episode_number := some 3, name := some "Ep", overview := none,
    still_path := none, air_date := none, vote_average := none,
    vote_count := some 4, updated_at := some 1700000000,
    guest_stars := [] }

/-- C8 counterexample: with a cached episode record that is perfectly
fresh but has an empty guest-star list, and a hit in the URL-keyed
response cache, the handler serves the cached response — no upstream
refresh is triggered, contradicting the claim that an empty guest-star
list forces a refresh. -/
theorem episode_empty_guests_url_cache_hit :
    (readEpisodeView (.num 1) [demoFreshEmptyGuestsEp] (some 3)).map
        EpisodeView.guest_stars = some [] ∧
    episodeServeDecision
        (readEpisodeView (.num 1) [demoFreshEmptyGuestsEp] (some 3))
        1700000000 true
      = ServeOutcome.urlCache ∧
    episodeServeDecision
        (readEpisodeView (.num 1) [demoFreshEmptyGuestsEp] (some 3))
        1700000000 true
      ≠ ServeOutcome.upstream :=
  ⟨by decide, by decide, by decide⟩

/-- C8 (amended): the episode table record is served only when it exists,
its age is within the threshold and its attached guest list is non-empty;
those conditions are also sufficient; when they fail the handler serves
the URL-keyed cache on a hit and fetches upstream only on a miss; and the
guest list attached to the served record aggregates every guest star
stored for the season, not only the requested episode's. -/
theorem episode_serve_conditions :
    (∀ (sid : JVal) (eps : List Episode) (n : Option Int) (now : Int)
        (hit : Bool),
        episodeServeDecision (readEpisodeView sid eps n) now hit
          = ServeOutcome.table →
        ∃ c, readEpisodeView sid eps n = some c ∧
          ∃ u, c.updated_at = some u ∧
            now - u ≤ CACHE_INTERVAL_SECONDS ∧ c.guest_stars ≠ []) ∧
    (∀ (c : EpisodeView) (now u : Int) (hit : Bool),
        c.updated_at = some u → now - u ≤ CACHE_INTERVAL_SECONDS →
        c.guest_stars ≠ [] →
        episodeServeDecision (some c) now hit = ServeOutcome.table) ∧
    (∀ (v : Option EpisodeView) (now : Int),
        episodeServeDecision v now true ≠ ServeOutcome.table →
        episodeServeDecision v now true = ServeOutcome.urlCache) ∧
    (∀ (v : Option EpisodeView) (now : Int),
        episodeServeDecision v now false ≠ ServeOutcome.table →
        episodeServeDecision v now false = ServeOutcome.upstream) ∧
    (∀ (sid : JVal) (eps : List Episode) (n : Option Int) (c : EpisodeView),
        readEpisodeView sid eps n = some c →
        c.guest_stars.length = (flattenGuestRows eps).length) := by
  refine ⟨?_, ?_, ?_, ?_, ?_⟩
  · intro sid eps n now hit hdec
    cases hv : readEpisodeView sid eps n with
    | none =>
      rw [hv] at hdec
      simp only [episodeServeDecision] at hdec
      cases hit <;> simp at hdec
    | some c =>
      rw [hv] at hdec
      simp only [episodeServeDecision] at hdec
      refine ⟨c, rfl, ?_⟩
      cases hu : c.updated_at with
      | none =>
        rw [hu] at hdec
        simp only [Bool.false_and, Bool.false_eq_true, if_false] at hdec
        cases hit <;> simp at hdec
      | some u =>
        rw [hu] at hdec
        by_cases hfresh : now - u ≤ CACHE_INTERVAL_SECONDS
        · by_cases hne : c.guest_stars = []
          · rw [hne] at hdec
            simp at hdec
            cases hit <;> simp at hdec
          · exact ⟨u, rfl, hfresh, hne⟩
        · simp only [hfresh, decide_False, Bool.false_and,
            Bool.false_eq_true, if_false] at hdec
          cases hit <;> simp at hdec
  · intro c now u hit hu hfresh hne
    simp only [episodeServeDecision, hu]
    have hcond : (decide (now - u ≤ CACHE_INTERVAL_SECONDS)
        && decide (c.guest_stars.length > 0)) = true := by
      simp only [Bool.and_eq_true, decide_eq_true_eq]
      exact ⟨hfresh, List.length_pos.mpr hne⟩
    rw [if_pos hcond]
  · intro v now hdec
    cases v with
    | none => rfl
    | some c =>
      simp only [episodeServeDecision] at hdec ⊢
      by_cases hcond : ((match c.updated_at with
          | some u => decide (now - u ≤ CACHE_INTERVAL_SECONDS)
          | none => false) && decide (c.guest_stars.length > 0)) = true
      · rw [if_pos hcond] at hdec
        exact absurd rfl hdec
      · rw [if_neg hcond] at hdec ⊢
        rfl
  · intro v now hdec
    cases v with
    | none => rfl
    | some c =>
      simp only [episodeServeDecision] at hdec ⊢
      by_cases hcond : ((match c.updated_at with
          | some u => decide (now - u ≤ CACHE_INTERVAL_SECONDS)
          | none => false) && decide (c.guest_stars.length > 0)) = true
      · rw [if_pos hcond] at hdec
        exact absurd rfl hdec
      · rw [if_neg hcond] at hdec ⊢
        rfl
  · intro sid eps n c hv
    unfold readEpisodeView at hv
    cases hfind : jsFind (fun e => numEqOptInt e.episode_number n) eps with
    | none =>
      rw [hfind] at hv
      exact Option.noConfusion hv
    | some ep =>
      rw [hfind] at hv
      simp only [Option.some.injEq] at hv
      rw [← hv]
      exact List.length_map _ _

def demoViewGuest : EpisodeViewGuest :=
  { series_id := .num 1, id := none, name := some "Alice",
    original_name := none, character := none, profile_path := none,
    order := some 0 }

def demoFreshGuestedView : EpisodeView :=
  { series_id := .num 1, id := .num 5, episode_id := .num 5,
    episode_number := some 3, name := some "Ep", overview := none,
    still_path := none, air_date := none, vote_average := 0,
    vote_count := 4, guest_stars := [demoViewGuest],
    updated_at := some 1700000000 }

/-- Witness for C8: a fresh cached episode view holding one guest star is
served from the table even when the URL cache misses. -/
theorem episode_serve_conditions_witness :
    episodeServeDecision (some demoFreshGuestedView) 1700000000 false
      = ServeOutcome.table :=
  episode_serve_conditions.2.1 demoFreshGuestedView 1700000000 1700000000
    false rfl (by decide) (by decide)

/-- C9: the scalar reads (`first`), the single-episode read and the list
reads (`all`) of the shim return `none` / the empty list on a missing key;
a backend read failure and a malformed stored value each produce the very
same miss result, never an error — the models are total functions into
`Option`/`List`, with the backend exception confined to `cacheGetM` and
caught by the `first`/`all` wrappers. -/
theorem store_read_miss_semantics :
    (∀ (α : Type),
        firstM (α := α) ReadOutcome.absent = none ∧
        firstM (α := α) ReadOutcome.backendError = none ∧
        firstM (α := α) ReadOutcome.malformed = none ∧
        ∀ v : α, firstM (ReadOutcome.ok v) = some v) ∧
    (∀ (α : Type),
        allM (α := α) ReadOutcome.absent = [] ∧
        allM (α := α) ReadOutcome.backendError = [] ∧
        allM (α := α) ReadOutcome.malformed = [] ∧
        ∀ l : List α, allM (ReadOutcome.ok l) = l) ∧
    (∀ n : Option Int,
        firstEpisodeM ReadOutcome.absent n = none ∧
        firstEpisodeM ReadOutcome.backendError n = none ∧
        firstEpisodeM ReadOutcome.malformed n = none) := by
  refine ⟨?_, ?_, ?_⟩
  · intro α
    exact ⟨rfl, rfl, rfl, fun v => rfl⟩
  · intro α
    exact ⟨rfl, rfl, rfl, fun l => rfl⟩
  · intro n
    exact ⟨rfl, rfl, rfl⟩

def demoFullSeriesPayload : SeriesPayload :=
  { id := .num 1399, genre_ids := some [18, 10765],
    original_language := some "en", overview := some "Seven kingdoms",
    original_name := some "Game of Thrones",
    created_by := some ["David Benioff", "D. B. Weiss"],
    number_of_episodes := some 73, number_of_seasons := some 8,
    poster_path := none, first_air_date := some "2011-04-17",
    name := some "Game of Thrones", vote_average := none,
    vote_count := some 22000 }

/-- C2 (code-bug evidence): `isExtendedDataMissing` holds for every series
row stored through `upsertSeries` and the shim — the stored object never
carries a `seasons` key, so the function's `row.seasons === undefined`
branch fires unconditionally.  In particular it returns true right after
the full detail upsert whose payload populates `created_by`,
`number_of_episodes` and `number_of_seasons` (concrete instance included),
so the claimed false-after-full-detail-upsert behavior is unreachable;
the search-only half of the claim (true for rows with empty creators and
zero counts) is the same instance of this fact. -/
theorem series_detail_upsert_still_incomplete :
    isExtendedDataMissing (upsertSeriesRow demoFullSeriesPayload 1700000000)
      = true ∧
    ∀ (p : SeriesPayload) (now : Int),
      isExtendedDataMissing (upsertSeriesRow p now) = true := by
  constructor
  · decide
  · intro p now
    simp [isExtendedDataMissing, upsertSeriesRow]
